import Mathlib

/-!
# The mutation decision engine of `pkg/mutate/mutate.go`

A shallow embedding of `Mutate`, `getMinimalCPUValue` and `getMinimalMemoryValue`.

The program calls four library routines: `json.Unmarshal` on the request body,
`json.Unmarshal` on the embedded object, `json.Marshal` on the operation list and
`json.Marshal` on the envelope.  They are not code of this package, so the embedding
takes them as the fields of a `Json` record and the program is a function of that
record.  What the theorems need to know about the library is written as a hypothesis
of the theorem that needs it.
-/

set_option autoImplicit false

set_option linter.dupNamespace false

namespace Webhook

/-! ## Data model -/

/-- A Go `[]byte`; the nil slice and the empty slice are both `[]`. -/
abbrev Bytes := List Nat

/-- A `resource.Quantity`, seen through the one observation the program makes of it,
the text that its method `String()` returns. -/
structure Quantity where
  text : String
  deriving DecidableEq, Repr

/-- The method `String()` of a quantity. -/
def Quantity.String (q : Quantity) : String := q.text

/-- The value `&resource.Quantity{Format: ...}` that the accessors `Memory()` and `Cpu()`
return for a key that is not in the map; the library renders it as `0`. -/
def Quantity.zero : Quantity := ⟨"0"⟩

/-- A `corev1.ResourceList`, a map from resource name to quantity, as an association list
read at its first matching key. -/
abbrev ResourceList := List (String × Quantity)

/-- The accessor `Name(name, defaultFormat)` behind `Memory()` and `Cpu()`: the stored quantity
when the key is in the map, the zero quantity otherwise. -/
def ResourceList.Name (rl : ResourceList) (name : String) : Quantity :=
  match rl.lookup name with
  | some val => val
  | none => Quantity.zero

/-- The accessor `Memory()`. -/
def ResourceList.Memory (rl : ResourceList) : Quantity := rl.Name "memory"

/-- The accessor `Cpu()`. -/
def ResourceList.Cpu (rl : ResourceList) : Quantity := rl.Name "cpu"

/-- The part of `corev1.ResourceRequirements` that the program reads. -/
structure ResourceRequirements where
  Limits : ResourceList
  Requests : ResourceList
  deriving DecidableEq, Repr

/-- The part of `corev1.Container` that the program reads. -/
structure Container where
  Resources : ResourceRequirements
  deriving DecidableEq, Repr

/-- The part of `corev1.PodSpec` that the program reads. -/
structure PodSpec where
  Containers : List Container
  deriving DecidableEq, Repr

/-- The part of `corev1.Pod` that the program reads. -/
structure Pod where
  Spec : PodSpec
  deriving DecidableEq, Repr

/-- A `runtime.RawExtension`. -/
structure RawExtension where
  Raw : Bytes
  deriving DecidableEq, Repr

/-- The part of `v1beta1.AdmissionRequest` that the program reads. -/
structure AdmissionRequest where
  UID : String
  Namespace : String
  Object : RawExtension
  deriving DecidableEq, Repr

/-- The part of `metav1.Status` that the program writes. -/
structure Status where
  Status : String
  deriving DecidableEq, Repr

/-- A `v1beta1.AdmissionResponse`.  `PatchType` is a pointer (`none` is nil),
`Patch` a byte slice and `AuditAnnotations` a map; all three are `omitempty` fields of
the serialized response, absent from it exactly when nil or of length zero. -/
structure AdmissionResponse where
  UID : String
  Allowed : Bool
  Result : Option Status
  Patch : Bytes
  PatchType : Option String
  AuditAnnotations : List (String × String)
  deriving DecidableEq, Repr

/-- The zero value `v1beta1.AdmissionResponse{}`. -/
def AdmissionResponse.empty : AdmissionResponse :=
  { UID := "", Allowed := false, Result := none, Patch := [], PatchType := none,
    AuditAnnotations := [] }

/-- A `v1beta1.AdmissionReview`: the request and response pointers. -/
structure AdmissionReview where
  Request : Option AdmissionRequest
  Response : Option AdmissionResponse
  deriving DecidableEq, Repr

/-- One element of the list `p`, a Go `map[string]string` written as a map literal. -/
abbrev PatchOp := List (String × String)

/-- The constant `v1beta1.PatchTypeJSONPatch`. -/
def PatchTypeJSONPatch : String := "JSONPatch"

/-- The library routines that `Mutate` calls. -/
structure Json where
  /-- The call `json.Unmarshal(body, &admReview)`. -/
  unmarshalReview : Bytes → Except String AdmissionReview
  /-- The call `json.Unmarshal(ar.Object.Raw, &pod)`.  On success the pointer is not nil:
  a `RawExtension` never stores the literal `null`, the only text that would leave it nil. -/
  unmarshalPod : Bytes → Except String Pod
  /-- The call `json.Marshal(p)`. -/
  marshalPatch : List PatchOp → Except String Bytes
  /-- The call `json.Marshal(admReview)`. -/
  marshalReview : AdmissionReview → Except String Bytes

/-! ## Namespace policy -/

/-- The function `getMinimalCPUValue`. -/
def getMinimalCPUValue (ns : String) : String :=
  let minimalCPUValue := "10m"
  let minimalCPUValue := if ns = "openshift-console" then "100m" else minimalCPUValue
  let minimalCPUValue :=
    if ns = "openshift-kube-controller-manager" then "300m" else minimalCPUValue
  let minimalCPUValue := if ns = "openshift-kube-apiserver" then "800m" else minimalCPUValue
  let minimalCPUValue := if ns = "openshift-etcd" then "600m" else minimalCPUValue
  minimalCPUValue

/-- The function `getMinimalMemoryValue`. -/
def getMinimalMemoryValue (ns : String) : String :=
  let minimalMemoryValue := "10Mi"
  let minimalMemoryValue := if ns = "openshift-console" then "50Mi" else minimalMemoryValue
  minimalMemoryValue

/-! ## The container loop -/

/-- The call `strings.HasPrefix(s, pre)`. -/
def stringsHasPrefix (s pre : String) : Bool := pre.toList.isPrefixOf s.toList

/-- The condition of the `if` at lines 38-39: a non-empty namespace that starts
with `openshift-`. -/
def gateOpen (ns : String) : Bool :=
  decide (ns.length > 0) && stringsHasPrefix ns "openshift-"

/-- The variables that the loop over the containers updates: the list `p` and
the field `resp.Patch`. -/
structure LoopState where
  p : List PatchOp
  Patch : Bytes
  deriving DecidableEq, Repr

/-- The statement `p = append(p, m)` guarded by the test that made `m`. -/
def appendPatch (p : List PatchOp) : Option PatchOp → List PatchOp
  | some m => p ++ [m]
  | none => p

/-- The variable `memoryPatch` of iteration `i`. -/
def memoryPatch (ns : String) (i : Nat) (c : Container) : Option PatchOp :=
  let currentMemory := c.Resources.Requests.Memory.String
  if currentMemory ≠ "0" then
    some [("op", "replace"),
          ("path", "/spec/containers/" ++ toString i ++ "/resources/requests/memory"),
          ("value", getMinimalMemoryValue ns)]
  else none

/-- The variable `cpuPatch` of iteration `i`. -/
def cpuPatch (ns : String) (i : Nat) (c : Container) : Option PatchOp :=
  let currentCPU := c.Resources.Requests.Cpu.String
  if currentCPU ≠ "0" then
    some [("op", "replace"),
          ("path", "/spec/containers/" ++ toString i ++ "/resources/requests/cpu"),
          ("value", getMinimalCPUValue ns)]
  else none

/-- The variable `memoryLimitsPatch` of iteration `i`. -/
def memoryLimitsPatch (i : Nat) (c : Container) : Option PatchOp :=
  let currentMemoryLimits := c.Resources.Limits.Memory.String
  if currentMemoryLimits ≠ "0" then
    some [("op", "remove"),
          ("path", "/spec/containers/" ++ toString i ++ "/resources/limits/memory")]
  else none

/-- The variable `cpuLimitsPatch` of iteration `i`. -/
def cpuLimitsPatch (i : Nat) (c : Container) : Option PatchOp :=
  let currentCPULimits := c.Resources.Limits.Cpu.String
  if currentCPULimits ≠ "0" then
    some [("op", "remove"),
          ("path", "/spec/containers/" ++ toString i ++ "/resources/limits/cpu")]
  else none

/-- The value that `resp.Patch, err = json.Marshal(p)` leaves in `resp.Patch`: the bytes
when the encoder succeeds, nil when it fails.  The error is not read before line 119
overwrites it. -/
def marshaledPatch (J : Json) (p : List PatchOp) : Bytes :=
  match J.marshalPatch p with
  | .ok b => b
  | .error _ => []

/-- One iteration of the loop, lines 57-108, for the container `c` at index `i`. -/
def loopBody (J : Json) (ns : String) (i : Nat) (c : Container) (st : LoopState) : LoopState :=
  let p := appendPatch st.p (memoryPatch ns i c)
  let p := appendPatch p (cpuPatch ns i c)
  let p := appendPatch p (memoryLimitsPatch i c)
  let p := appendPatch p (cpuLimitsPatch i c)
  if (memoryPatch ns i c).isSome || (cpuPatch ns i c).isSome ||
      (memoryLimitsPatch i c).isSome || (cpuLimitsPatch i c).isSome then
    { p := p, Patch := marshaledPatch J p }
  else { p := p, Patch := st.Patch }

/-- The loop `for i := range pod.Spec.Containers`, run from index `i` over the
containers that remain. -/
def patchLoop (J : Json) (ns : String) : Nat → List Container → LoopState → LoopState
  | _, [], st => st
  | i, c :: cs, st => patchLoop J ns (i + 1) cs (loopBody J ns i c st)

/-! ## The response and `Mutate` -/

/-- Lines 27 and 36-117: the response built for a request `ar` whose object decoded
as `pod`. -/
def mutateResponse (J : Json) (ar : AdmissionRequest) (pod : Pod) : AdmissionResponse :=
  let resp := AdmissionResponse.empty
  let resp := { resp with Allowed := true }
  let resp := { resp with UID := ar.UID }
  let resp :=
    if gateOpen ar.Namespace then
      let resp := { resp with PatchType := some PatchTypeJSONPatch }
      let resp := { resp with AuditAnnotations :=
        [("crc-mutate-webhook", "initial resource requests been adjusted by crc-mutate-webhook")] }
      let st := patchLoop J ar.Namespace 0 pod.Spec.Containers { p := [], Patch := resp.Patch }
      { resp with Patch := st.Patch }
    else resp
  { resp with Result := some { Status := "Success" } }

/-- The function `Mutate`.  The lines written to standard output are not part of
the result and are left out. -/
def Mutate (J : Json) (body : Bytes) (_verbose : Bool) : Except String Bytes :=
  match J.unmarshalReview body with
  | .error err => .error ("unmarshaling request failed with " ++ err)
  | .ok admReview =>
    let responseBody : Bytes := []
    match admReview.Request with
    | none => .ok responseBody
    | some ar =>
      match J.unmarshalPod ar.Object.Raw with
      | .error err => .error ("unable unmarshal pod json object " ++ err)
      | .ok pod =>
        let resp := mutateResponse J ar pod
        match J.marshalReview { admReview with Response := some resp } with
        | .error err => .error err
        | .ok responseBody => .ok responseBody

/-- The list `p` when the loop ends, for a namespace and a decoded pod. -/
def builtOps (J : Json) (ns : String) (pod : Pod) : List PatchOp :=
  (patchLoop J ns 0 pod.Spec.Containers { p := [], Patch := [] }).p

/-! ## The patch builder as the specification words it -/

/-- Section 4.2, first row: replace `requests/memory` of container `i` with the minimum
memory of the namespace. -/
def replaceRequestsMemory (ns : String) (i : Nat) : PatchOp :=
  [("op", "replace"),
   ("path", "/spec/containers/" ++ toString i ++ "/resources/requests/memory"),
   ("value", getMinimalMemoryValue ns)]

/-- Section 4.2, second row: replace `requests/cpu` of container `i` with the minimum
CPU of the namespace. -/
def replaceRequestsCpu (ns : String) (i : Nat) : PatchOp :=
  [("op", "replace"),
   ("path", "/spec/containers/" ++ toString i ++ "/resources/requests/cpu"),
   ("value", getMinimalCPUValue ns)]

/-- Section 4.2, third row: remove `limits/memory` of container `i`. -/
def removeLimitsMemory (i : Nat) : PatchOp :=
  [("op", "remove"),
   ("path", "/spec/containers/" ++ toString i ++ "/resources/limits/memory")]

/-- Section 4.2, fourth row: remove `limits/cpu` of container `i`. -/
def removeLimitsCpu (i : Nat) : PatchOp :=
  [("op", "remove"),
   ("path", "/spec/containers/" ++ toString i ++ "/resources/limits/cpu")]

/-- Section 4.2: the operations of the container at index `i`, in the order of the table,
each one listed exactly when the text of its quantity is not `0`. -/
def specContainerOps (ns : String) (i : Nat) (c : Container) : List PatchOp :=
  (if c.Resources.Requests.Memory.String ≠ "0" then [replaceRequestsMemory ns i] else []) ++
  (if c.Resources.Requests.Cpu.String ≠ "0" then [replaceRequestsCpu ns i] else []) ++
  (if c.Resources.Limits.Memory.String ≠ "0" then [removeLimitsMemory i] else []) ++
  (if c.Resources.Limits.Cpu.String ≠ "0" then [removeLimitsCpu i] else [])

/-- Section 4.2: the containers are walked in input order, from index 0, and their
operation lists are concatenated. -/
def specOps (ns : String) (pod : Pod) : List PatchOp :=
  (pod.Spec.Containers.enum.map (fun ic => specContainerOps ns ic.1 ic.2)).flatten

/-! ## Keys of the operations -/

/-- The four resource fields, in the order in which an iteration tests them. -/
inductive ResourceField where
  | requestsMemory
  | requestsCpu
  | limitsMemory
  | limitsCpu
  deriving DecidableEq, Repr

/-- The rank of a field: `requests.memory < requests.cpu < limits.memory < limits.cpu`. -/
def ResourceField.rank : ResourceField → Nat
  | .requestsMemory => 0
  | .requestsCpu => 1
  | .limitsMemory => 2
  | .limitsCpu => 3

/-- The end of the path of a field, after the container index. -/
def ResourceField.suffix : ResourceField → String
  | .requestsMemory => "/resources/requests/memory"
  | .requestsCpu => "/resources/requests/cpu"
  | .limitsMemory => "/resources/limits/memory"
  | .limitsCpu => "/resources/limits/cpu"

/-- The text of the quantity that the iteration reads for a field. -/
def ResourceField.text (c : Container) : ResourceField → String
  | .requestsMemory => c.Resources.Requests.Memory.String
  | .requestsCpu => c.Resources.Requests.Cpu.String
  | .limitsMemory => c.Resources.Limits.Memory.String
  | .limitsCpu => c.Resources.Limits.Cpu.String

/-- The path `/spec/containers/i/resources/...` of a field of container `i`. -/
def fieldPath (i : Nat) (f : ResourceField) : String :=
  "/spec/containers/" ++ toString i ++ f.suffix

/-- The operation on a field of container `i`. -/
def keyOp (ns : String) (k : Nat × ResourceField) : PatchOp :=
  match k.2 with
  | .requestsMemory => replaceRequestsMemory ns k.1
  | .requestsCpu => replaceRequestsCpu ns k.1
  | .limitsMemory => removeLimitsMemory k.1
  | .limitsCpu => removeLimitsCpu k.1

/-- The entry `path` of an operation. -/
def opPath (op : PatchOp) : Option String := op.lookup "path"

/-- The fields of container `i` whose text is not `0`, paired with `i`. -/
def containerKeys (i : Nat) (c : Container) : List (Nat × ResourceField) :=
  ([ResourceField.requestsMemory, ResourceField.requestsCpu, ResourceField.limitsMemory,
    ResourceField.limitsCpu].filter (fun f => decide (f.text c ≠ "0"))).map (fun f => (i, f))

/-- The pairs (container index, field) whose text is not `0`, for the containers `cs`
numbered from `i`. -/
def emittedKeysFrom (i : Nat) (cs : List Container) : List (Nat × ResourceField) :=
  ((cs.enumFrom i).map (fun ic => containerKeys ic.1 ic.2)).flatten

/-- The pairs (container index, field) of a pod whose text is not `0`. -/
def emittedKeys (pod : Pod) : List (Nat × ResourceField) :=
  emittedKeysFrom 0 pod.Spec.Containers

/-- The lexicographic order on (container index, field rank). -/
def keyLt (a b : Nat × ResourceField) : Prop :=
  a.1 < b.1 ∨ (a.1 = b.1 ∧ a.2.rank < b.2.rank)

/-- The number written by the decimal digits at the head of a text, continuing from `acc`. -/
def leadingNat (acc : Nat) : List Char → Nat
  | [] => acc
  | c :: cs => if c.isDigit then leadingNat (acc * 10 + (c.toNat - 48)) cs else acc

/-- The container index written in a path, after the 17 characters of
`/spec/containers/`. -/
def pathIndex (path : String) : Nat := leadingNat 0 (path.toList.drop 17)

/-! ## The form of a path, presence of a field, counting -/

/-- The map of a field, as the path names it: `requests` or `limits`. -/
def ResourceField.group : ResourceField → String
  | .requestsMemory => "requests"
  | .requestsCpu => "requests"
  | .limitsMemory => "limits"
  | .limitsCpu => "limits"

/-- The resource of a field, as the path names it: `cpu` or `memory`. -/
def ResourceField.resource : ResourceField → String
  | .requestsMemory => "memory"
  | .requestsCpu => "cpu"
  | .limitsMemory => "memory"
  | .limitsCpu => "cpu"

/-- The map of the container in which a field lives. -/
def ResourceField.list (c : Container) : ResourceField → ResourceList
  | .requestsMemory => c.Resources.Requests
  | .requestsCpu => c.Resources.Requests
  | .limitsMemory => c.Resources.Limits
  | .limitsCpu => c.Resources.Limits

/-- The entry of a field in its map: `none` when the map does not contain the key. -/
def ResourceField.entry (c : Container) (f : ResourceField) : Option Quantity :=
  (f.list c).lookup f.resource

/-- The number of the four fields of a container whose text is not `0`. -/
def Container.fieldCount (c : Container) : Nat :=
  (if c.Resources.Requests.Memory.String ≠ "0" then 1 else 0) +
  (if c.Resources.Requests.Cpu.String ≠ "0" then 1 else 0) +
  (if c.Resources.Limits.Memory.String ≠ "0" then 1 else 0) +
  (if c.Resources.Limits.Cpu.String ≠ "0" then 1 else 0)

/-- The number of pairs (container, field) of a pod whose text is not `0`. -/
def Pod.fieldCount (pod : Pod) : Nat :=
  (pod.Spec.Containers.map Container.fieldCount).sum

/-! ## Concrete inputs -/

/-- Scenario (b): requests `cpu=500m, memory=512Mi`, limits `cpu=1, memory=1Gi`. -/
def podDefault : Pod :=
  ⟨⟨[⟨⟨[("cpu", ⟨"1"⟩), ("memory", ⟨"1Gi"⟩)], [("cpu", ⟨"500m"⟩), ("memory", ⟨"512Mi"⟩)]⟩⟩]⟩⟩

/-- Scenario (c): requests `cpu=500m, memory=256Mi`, limits `cpu=1, memory=512Mi`. -/
def podConsole : Pod :=
  ⟨⟨[⟨⟨[("cpu", ⟨"1"⟩), ("memory", ⟨"512Mi"⟩)], [("cpu", ⟨"500m"⟩), ("memory", ⟨"256Mi"⟩)]⟩⟩]⟩⟩

/-- Scenario (d): one container with only requests `cpu=1`. -/
def podEtcd : Pod := ⟨⟨[⟨⟨[], [("cpu", ⟨"1"⟩)]⟩⟩]⟩⟩

/-- Scenario (e): two containers, the first without resource fields, the second with
requests `memory=1Gi`. -/
def podTwo : Pod := ⟨⟨[⟨⟨[], []⟩⟩, ⟨⟨[], [("memory", ⟨"1Gi"⟩)]⟩⟩]⟩⟩

/-- One container without resource fields. -/
def podBare : Pod := ⟨⟨[⟨⟨[], []⟩⟩]⟩⟩

/-- The namespace that the first byte of a sample body selects. -/
def sampleNamespace : Nat → String
  | 1 => "default"
  | 2 => "openshift-console"
  | 3 => "openshift-etcd"
  | 4 => "openshift-foo"
  | 5 => "Openshift-console"
  | _ => ""

/-- A small instance of the library, enough to run `Mutate` on concrete bodies.
The body `[0]` is an envelope without a request; a body `n :: raw` with `1 ≤ n ≤ 6` is an
envelope whose request has the uid `uid-n`, the namespace `sampleNamespace n` and the
object `raw`; every other body is malformed.  The objects `[1]` to `[5]` are the five pods
above; every other object is malformed.  Both encoders always succeed and write a text in
brackets. -/
def sampleJson : Json where
  unmarshalReview body :=
    match body with
    | [0] => .ok { Request := none, Response := none }
    | n :: raw =>
      if 1 ≤ n ∧ n ≤ 6 then
        .ok { Request := some { UID := "uid-" ++ toString n, Namespace := sampleNamespace n,
                                Object := ⟨raw⟩ },
              Response := none }
      else .error "invalid character"
    | [] => .error "unexpected end of JSON input"
  unmarshalPod raw :=
    match raw with
    | [1] => .ok podDefault
    | [2] => .ok podConsole
    | [3] => .ok podEtcd
    | [4] => .ok podTwo
    | [5] => .ok podBare
    | _ => .error "unexpected end of JSON input"
  marshalPatch p := .ok (91 :: p.map List.length ++ [93])
  marshalReview r :=
    .ok (123 :: (match r.Response with
                 | some resp => resp.Patch
                 | none => []) ++ [125])

/-! ## Serializing once, deleting a field -/

/-- Design note of section 9: the patch of an implementation that serializes once, after
the loop: the encoding of the complete operation list when that list is not empty, no
patch when it is empty. -/
def serializedOnce (J : Json) (p : List PatchOp) : Bytes :=
  if p = [] then [] else marshaledPatch J p

/-- The Go statement `delete(rl, name)`: the map without the key `name`. -/
def ResourceList.delete (rl : ResourceList) (name : String) : ResourceList :=
  rl.filter (fun e => e.1 != name)

/-- The container with the entry of one field deleted from its map. -/
def Container.deleteField (c : Container) : ResourceField → Container
  | .requestsMemory =>
    { Resources := { c.Resources with Requests := c.Resources.Requests.delete "memory" } }
  | .requestsCpu =>
    { Resources := { c.Resources with Requests := c.Resources.Requests.delete "cpu" } }
  | .limitsMemory =>
    { Resources := { c.Resources with Limits := c.Resources.Limits.delete "memory" } }
  | .limitsCpu =>
    { Resources := { c.Resources with Limits := c.Resources.Limits.delete "cpu" } }

/-- The containers with the entry of one field deleted in the container at position `j`. -/
def deleteFieldAt (f : ResourceField) : Nat → List Container → List Container
  | _, [] => []
  | 0, c :: cs => c.deleteField f :: cs
  | j + 1, c :: cs => c :: deleteFieldAt f j cs

/-- The pod with the entry of one field deleted in the container at position `j`. -/
def Pod.deleteField (pod : Pod) (j : Nat) (f : ResourceField) : Pod :=
  { Spec := { Containers := deleteFieldAt f j pod.Spec.Containers } }

/-- No container of the pod has any of the four fields in its maps. -/
def Pod.allUnset (pod : Pod) : Prop :=
  ∀ c ∈ pod.Spec.Containers, ∀ f : ResourceField, f.entry c = none

/-- A pod without containers. -/
def podEmpty : Pod := ⟨⟨[]⟩⟩

/-- Three containers: the first with requests `cpu=1`, the last two without resource
fields. -/
def podTrailing : Pod := ⟨⟨[⟨⟨[], [("cpu", ⟨"1"⟩)]⟩⟩, ⟨⟨[], []⟩⟩, ⟨⟨[], []⟩⟩]⟩⟩

/-- One container with requests `cpu=0, memory=64Mi` and limits `memory=0`: two of the
fields are present and zero-valued. -/
def podZero : Pod :=
  ⟨⟨[⟨⟨[("memory", ⟨"0"⟩)], [("cpu", ⟨"0"⟩), ("memory", ⟨"64Mi"⟩)]⟩⟩]⟩⟩

/-! ## What the theorems assume of the library -/

/-- The encoder of the envelope does not fail: `json.Marshal` has no error case for
the types of an `AdmissionReview` that was decoded from a body. -/
def Json.EncodesReviews (J : Json) : Prop :=
  ∀ r : AdmissionReview, ∃ b : Bytes, J.marshalReview r = .ok b

/-- The encoder of the operation list does not fail and writes at least one byte:
`json.Marshal` of a `[]map[string]string` is a text in brackets. -/
def Json.EncodesPatches (J : Json) : Prop :=
  ∀ p : List PatchOp, ∃ b : Bytes, J.marshalPatch p = .ok b ∧ b ≠ []

/-- Some container of the pod has one of the four resource fields with a text other
than `0`. -/
def Pod.hasResourceField (pod : Pod) : Prop :=
  ∃ c ∈ pod.Spec.Containers,
    c.Resources.Requests.Memory.String ≠ "0" ∨ c.Resources.Requests.Cpu.String ≠ "0" ∨
    c.Resources.Limits.Memory.String ≠ "0" ∨ c.Resources.Limits.Cpu.String ≠ "0"

/-! ## The operation list -/

/-- The list that one iteration appends to `p`. -/
theorem loopBody_p (J : Json) (ns : String) (i : Nat) (c : Container) (st : LoopState) :
    (loopBody J ns i c st).p = st.p ++ specContainerOps ns i c := by
  unfold loopBody specContainerOps memoryPatch cpuPatch memoryLimitsPatch cpuLimitsPatch
  simp only [replaceRequestsMemory, replaceRequestsCpu, removeLimitsMemory, removeLimitsCpu]
  by_cases h1 : c.Resources.Requests.Memory.String = "0" <;>
  by_cases h2 : c.Resources.Requests.Cpu.String = "0" <;>
  by_cases h3 : c.Resources.Limits.Memory.String = "0" <;>
  by_cases h4 : c.Resources.Limits.Cpu.String = "0" <;>
  simp [h1, h2, h3, h4, appendPatch]

/-- The list `p` after the loop has run from index `i` over `cs`. -/
theorem patchLoop_p (J : Json) (ns : String) (cs : List Container) :
    ∀ (i : Nat) (st : LoopState),
      (patchLoop J ns i cs st).p =
        st.p ++ ((cs.enumFrom i).map (fun ic => specContainerOps ns ic.1 ic.2)).flatten := by
  induction cs with
  | nil => intro i st; simp [patchLoop]
  | cons c cs ih =>
    intro i st
    simp [patchLoop, ih, loopBody_p, List.append_assoc]

/-- The list `p` at the end of the loop is the list of section 4.2. -/
theorem builtOps_eq_specOps (J : Json) (ns : String) (pod : Pod) :
    builtOps J ns pod = specOps ns pod := by
  simp [builtOps, specOps, patchLoop_p, List.enum]

/-! ## The patch bytes -/

/-- The field `resp.Patch` after one iteration: rewritten exactly when the container
yielded an operation. -/
theorem loopBody_Patch (J : Json) (ns : String) (i : Nat) (c : Container) (st : LoopState) :
    (loopBody J ns i c st).Patch =
      if specContainerOps ns i c = [] then st.Patch
      else marshaledPatch J (st.p ++ specContainerOps ns i c) := by
  unfold loopBody specContainerOps memoryPatch cpuPatch memoryLimitsPatch cpuLimitsPatch
  simp only [replaceRequestsMemory, replaceRequestsCpu, removeLimitsMemory, removeLimitsCpu]
  by_cases h1 : c.Resources.Requests.Memory.String = "0" <;>
  by_cases h2 : c.Resources.Requests.Cpu.String = "0" <;>
  by_cases h3 : c.Resources.Limits.Memory.String = "0" <;>
  by_cases h4 : c.Resources.Limits.Cpu.String = "0" <;>
  simp [h1, h2, h3, h4, appendPatch]

/-- The field `resp.Patch` after the loop has run from index `i` over `cs`. -/
theorem patchLoop_Patch (J : Json) (ns : String) (cs : List Container) :
    ∀ (i : Nat) (st : LoopState),
      (patchLoop J ns i cs st).Patch =
        if ((cs.enumFrom i).map (fun ic => specContainerOps ns ic.1 ic.2)).flatten = []
        then st.Patch
        else marshaledPatch J
          (st.p ++ ((cs.enumFrom i).map (fun ic => specContainerOps ns ic.1 ic.2)).flatten) := by
  induction cs with
  | nil => intro i st; simp [patchLoop]
  | cons c cs ih =>
    intro i st
    simp only [patchLoop, ih, loopBody_p, loopBody_Patch, List.enumFrom_cons, List.map_cons,
      List.flatten_cons, List.append_assoc, List.append_eq_nil]
    by_cases hc : specContainerOps ns i c = [] <;>
    by_cases hr : ((cs.enumFrom (i + 1)).map
        (fun ic => specContainerOps ns ic.1 ic.2)).flatten = [] <;>
    simp [hc, hr]

/-- The field `resp.Patch` of the response in an open gate. -/
theorem builtPatch_eq (J : Json) (ns : String) (pod : Pod) :
    (patchLoop J ns 0 pod.Spec.Containers { p := [], Patch := [] }).Patch =
      if builtOps J ns pod = [] then [] else marshaledPatch J (builtOps J ns pod) := by
  have hp : builtOps J ns pod =
      ((pod.Spec.Containers.enumFrom 0).map
        (fun ic => specContainerOps ns ic.1 ic.2)).flatten := by
    simp [builtOps, patchLoop_p]
  rw [patchLoop_Patch, hp]
  simp

/-- A namespace that starts with `openshift-` is not empty, so the gate is the
test of the first ten characters. -/
theorem gateOpen_eq (ns : String) : gateOpen ns = stringsHasPrefix ns "openshift-" := by
  unfold gateOpen
  by_cases h : stringsHasPrefix ns "openshift-" = true
  · have hpre : "openshift-".toList <+: ns.toList := by
      simpa [stringsHasPrefix] using h
    have hlen : "openshift-".toList.length ≤ ns.toList.length := hpre.length_le
    have h10 : "openshift-".toList.length = 10 := by decide
    have : ns.length > 0 := by
      have : ns.length = ns.toList.length := rfl
      omega
    simp [h, this]
  · simp [h]

/-- The response in a closed gate. -/
theorem mutateResponse_closed (J : Json) (ar : AdmissionRequest) (pod : Pod)
    (h : gateOpen ar.Namespace = false) :
    mutateResponse J ar pod =
      { UID := ar.UID, Allowed := true, Result := some { Status := "Success" }, Patch := [],
        PatchType := none, AuditAnnotations := [] } := by
  simp [mutateResponse, h, AdmissionResponse.empty]

/-- The response in an open gate. -/
theorem mutateResponse_open (J : Json) (ar : AdmissionRequest) (pod : Pod)
    (h : gateOpen ar.Namespace = true) :
    mutateResponse J ar pod =
      { UID := ar.UID, Allowed := true, Result := some { Status := "Success" },
        Patch := if builtOps J ar.Namespace pod = [] then []
                 else marshaledPatch J (builtOps J ar.Namespace pod),
        PatchType := some PatchTypeJSONPatch,
        AuditAnnotations :=
          [("crc-mutate-webhook",
            "initial resource requests been adjusted by crc-mutate-webhook")] } := by
  simp [mutateResponse, h, AdmissionResponse.empty, builtPatch_eq]

/-- A successful run on an envelope with a request: the object decoded as a pod and the
returned bytes are the encoding of the envelope with the built response attached. -/
theorem Mutate_ok_inv (J : Json) (body : Bytes) (v : Bool) (out : Bytes)
    (review : AdmissionReview) (ar : AdmissionRequest)
    (hdec : J.unmarshalReview body = .ok review) (hreq : review.Request = some ar)
    (hok : Mutate J body v = .ok out) :
    ∃ pod, J.unmarshalPod ar.Object.Raw = .ok pod ∧
      J.marshalReview { review with Response := some (mutateResponse J ar pod) } = .ok out := by
  unfold Mutate at hok
  simp only [hdec, hreq] at hok
  cases hpod : J.unmarshalPod ar.Object.Raw with
  | error e => simp [hpod] at hok
  | ok pod =>
    simp only [hpod] at hok
    refine ⟨pod, rfl, ?_⟩
    cases hm : J.marshalReview { review with Response := some (mutateResponse J ar pod) } with
    | error e => rw [hreq] at hm; rw [hm] at hok; cases hok
    | ok b => rw [hreq] at hm; rw [hm] at hok; cases hok; rfl

/-- The sample library encodes every envelope. -/
theorem sampleJson_encodesReviews : sampleJson.EncodesReviews :=
  fun _ => ⟨_, rfl⟩

/-- The sample library encodes every operation list into at least one byte. -/
theorem sampleJson_encodesPatches : sampleJson.EncodesPatches :=
  fun _ => ⟨_, rfl, by simp⟩

/-- The bytes left in `resp.Patch` for a non-empty list, when the encoder works. -/
theorem marshaledPatch_ne_nil (J : Json) (hp : J.EncodesPatches) (p : List PatchOp) :
    marshaledPatch J p ≠ [] ∧ J.marshalPatch p = .ok (marshaledPatch J p) := by
  obtain ⟨b, hb, hne⟩ := hp p
  simp [marshaledPatch, hb, hne]

/-- A container with a field other than `0` makes the operation list non-empty. -/
theorem specOps_ne_nil (ns : String) (pod : Pod) (h : pod.hasResourceField) :
    specOps ns pod ≠ [] := by
  obtain ⟨c, hc, hf⟩ := h
  have key : ∀ (cs : List Container) (i : Nat), c ∈ cs →
      ((cs.enumFrom i).map (fun ic => specContainerOps ns ic.1 ic.2)).flatten ≠ [] := by
    intro cs
    induction cs with
    | nil => intro i hmem; cases hmem
    | cons d ds ih =>
      intro i hmem
      rcases List.mem_cons.mp hmem with rfl | hmem
      · simp only [List.enumFrom_cons, List.map_cons, List.flatten_cons, ne_eq,
          List.append_eq_nil, not_and]
        intro hnil
        exfalso
        unfold specContainerOps at hnil
        rcases hf with h | h | h | h <;> simp [h] at hnil
      · simp only [List.enumFrom_cons, List.map_cons, List.flatten_cons, ne_eq,
          List.append_eq_nil, not_and]
        intro _
        exact ih (i + 1) hmem
  exact key pod.Spec.Containers 0 hc

/-! ## The claims -/

/-- C1: for a request whose namespace begins with `openshift-` and any decoded pod, the
list `p` that the loop of `Mutate` builds, and that the response carries encoded when it
is not empty, is the concatenation, over the containers from index 0 upwards, of the
per-container lists of section 4.2. -/
theorem C1_built_ops_eq_spec (J : Json) (ar : AdmissionRequest) (pod : Pod)
    (hgate : stringsHasPrefix ar.Namespace "openshift-" = true) :
    builtOps J ar.Namespace pod = specOps ar.Namespace pod ∧
    (mutateResponse J ar pod).Patch =
      if specOps ar.Namespace pod = [] then []
      else marshaledPatch J (specOps ar.Namespace pod) := by
  have hg : gateOpen ar.Namespace = true := by rw [gateOpen_eq]; exact hgate
  refine ⟨builtOps_eq_specOps J ar.Namespace pod, ?_⟩
  rw [mutateResponse_open J ar pod hg, builtOps_eq_specOps]

/-- C1, scenario (c): in `openshift-console`, one container with all four fields set gives
the four operations on index 0, in the order of the table. -/
theorem C1_built_ops_eq_spec_witness :
    stringsHasPrefix "openshift-console" "openshift-" = true ∧
    specOps "openshift-console" podConsole =
      [[("op", "replace"), ("path", "/spec/containers/0/resources/requests/memory"),
        ("value", "50Mi")],
       [("op", "replace"), ("path", "/spec/containers/0/resources/requests/cpu"),
        ("value", "100m")],
       [("op", "remove"), ("path", "/spec/containers/0/resources/limits/memory")],
       [("op", "remove"), ("path", "/spec/containers/0/resources/limits/cpu")]] ∧
    (builtOps sampleJson "openshift-console" podConsole =
        specOps "openshift-console" podConsole ∧
      (mutateResponse sampleJson ⟨"uid-2", "openshift-console", ⟨[2]⟩⟩ podConsole).Patch =
        if specOps "openshift-console" podConsole = [] then []
        else marshaledPatch sampleJson (specOps "openshift-console" podConsole)) :=
  ⟨by decide, by decide,
    C1_built_ops_eq_spec sampleJson ⟨"uid-2", "openshift-console", ⟨[2]⟩⟩ podConsole
      (by decide)⟩

/-- C5: both policy functions return the row of the table selected by equality of the
namespace with one of the four names, and the default row for every other string, among
them strings that extend one of the names or differ from it in letter case. -/
theorem C5_policy_table :
    (∀ ns : String,
      (getMinimalCPUValue ns, getMinimalMemoryValue ns) =
        if ns = "openshift-console" then ("100m", "50Mi")
        else if ns = "openshift-kube-controller-manager" then ("300m", "10Mi")
        else if ns = "openshift-kube-apiserver" then ("800m", "10Mi")
        else if ns = "openshift-etcd" then ("600m", "10Mi")
        else ("10m", "10Mi")) ∧
    (getMinimalCPUValue "openshift-console-operator",
      getMinimalMemoryValue "openshift-console-operator") = ("10m", "10Mi") ∧
    (getMinimalCPUValue "openshift-etcd-operator",
      getMinimalMemoryValue "openshift-etcd-operator") = ("10m", "10Mi") ∧
    (getMinimalCPUValue "Openshift-Console", getMinimalMemoryValue "Openshift-Console") =
      ("10m", "10Mi") ∧
    (getMinimalCPUValue "OPENSHIFT-ETCD", getMinimalMemoryValue "OPENSHIFT-ETCD") =
      ("10m", "10Mi") ∧
    (getMinimalCPUValue "openshift-kube-scheduler",
      getMinimalMemoryValue "openshift-kube-scheduler") = ("10m", "10Mi") := by
  refine ⟨?_, by decide, by decide, by decide, by decide, by decide⟩
  intro ns
  unfold getMinimalCPUValue getMinimalMemoryValue
  by_cases h1 : ns = "openshift-console"
  · subst h1; decide
  by_cases h2 : ns = "openshift-kube-controller-manager"
  · subst h2; decide
  by_cases h3 : ns = "openshift-kube-apiserver"
  · subst h3; decide
  by_cases h4 : ns = "openshift-etcd"
  · subst h4; decide
  simp [h1, h2, h3, h4]

/-- C2, as amended: on a successful run with a request present, `patchType` is
present iff `auditAnnotations` is present iff the gate is open, and `patch` is present iff
the gate is open and some container yielded an operation; a present patch comes with
both other fields. -/
theorem C2_patch_fields_amended (J : Json) (hp : J.EncodesPatches) (body : Bytes) (v : Bool)
    (out : Bytes) (review : AdmissionReview) (ar : AdmissionRequest)
    (hdec : J.unmarshalReview body = .ok review) (hreq : review.Request = some ar)
    (hok : Mutate J body v = .ok out) :
    ∃ pod resp, J.unmarshalPod ar.Object.Raw = .ok pod ∧ resp = mutateResponse J ar pod ∧
      J.marshalReview { review with Response := some resp } = .ok out ∧
      (resp.PatchType ≠ none ↔ resp.AuditAnnotations ≠ []) ∧
      (resp.PatchType ≠ none ↔ stringsHasPrefix ar.Namespace "openshift-" = true) ∧
      (resp.Patch ≠ [] ↔
        (stringsHasPrefix ar.Namespace "openshift-" = true ∧
          builtOps J ar.Namespace pod ≠ [])) ∧
      (resp.Patch ≠ [] → resp.PatchType ≠ none ∧ resp.AuditAnnotations ≠ []) := by
  obtain ⟨pod, hpod, hout⟩ := Mutate_ok_inv J body v out review ar hdec hreq hok
  refine ⟨pod, _, hpod, rfl, hout, ?_⟩
  by_cases hg : gateOpen ar.Namespace = true
  · have hg2 : stringsHasPrefix ar.Namespace "openshift-" = true := by
      rw [← gateOpen_eq]; exact hg
    rw [mutateResponse_open J ar pod hg]
    by_cases he : builtOps J ar.Namespace pod = []
    · simp [he, hg2]
    · simp [he, hg2, (marshaledPatch_ne_nil J hp _).1]
  · have hg1 : gateOpen ar.Namespace = false := by simpa using hg
    have hg2 : stringsHasPrefix ar.Namespace "openshift-" = false := by
      rw [← gateOpen_eq]; exact hg1
    rw [mutateResponse_closed J ar pod hg1]
    simp [hg2]

/-- C2, as amended, on the body `[4, 5]`: `openshift-foo` and a container without resource
fields. -/
theorem C2_patch_fields_amended_witness :
    sampleJson.EncodesPatches ∧
    sampleJson.unmarshalReview [4, 5] =
      .ok { Request := some ⟨"uid-4", "openshift-foo", ⟨[5]⟩⟩, Response := none } ∧
    Mutate sampleJson [4, 5] false = .ok [123, 125] ∧
    ∃ pod resp, sampleJson.unmarshalPod [5] = .ok pod ∧
      resp = mutateResponse sampleJson ⟨"uid-4", "openshift-foo", ⟨[5]⟩⟩ pod ∧
      sampleJson.marshalReview
        { Request := some ⟨"uid-4", "openshift-foo", ⟨[5]⟩⟩, Response := some resp } =
          .ok [123, 125] ∧
      (resp.PatchType ≠ none ↔ resp.AuditAnnotations ≠ []) ∧
      (resp.PatchType ≠ none ↔ stringsHasPrefix "openshift-foo" "openshift-" = true) ∧
      (resp.Patch ≠ [] ↔
        (stringsHasPrefix "openshift-foo" "openshift-" = true ∧
          builtOps sampleJson "openshift-foo" pod ≠ [])) ∧
      (resp.Patch ≠ [] → resp.PatchType ≠ none ∧ resp.AuditAnnotations ≠ []) :=
  ⟨sampleJson_encodesPatches, rfl, rfl,
    C2_patch_fields_amended sampleJson sampleJson_encodesPatches [4, 5] false [123, 125]
      { Request := some ⟨"uid-4", "openshift-foo", ⟨[5]⟩⟩, Response := none }
      ⟨"uid-4", "openshift-foo", ⟨[5]⟩⟩ rfl rfl rfl⟩

/-- C2 fails as stated: in `openshift-foo`, a pod whose one container has no resource
fields yields no operation and no patch, yet the response carries `patchType` and
`auditAnnotations`. -/
theorem C2_counterexample :
    sampleJson.unmarshalReview [4, 5] =
      .ok { Request := some ⟨"uid-4", "openshift-foo", ⟨[5]⟩⟩, Response := none } ∧
    sampleJson.unmarshalPod [5] = .ok podBare ∧
    Mutate sampleJson [4, 5] false = .ok [123, 125] ∧
    builtOps sampleJson "openshift-foo" podBare = [] ∧
    mutateResponse sampleJson ⟨"uid-4", "openshift-foo", ⟨[5]⟩⟩ podBare =
      { UID := "uid-4", Allowed := true, Result := some ⟨"Success"⟩, Patch := [],
        PatchType := some "JSONPatch",
        AuditAnnotations :=
          [("crc-mutate-webhook",
            "initial resource requests been adjusted by crc-mutate-webhook")] } ∧
    ¬ ((mutateResponse sampleJson ⟨"uid-4", "openshift-foo", ⟨[5]⟩⟩ podBare).Patch ≠ [] ↔
        (mutateResponse sampleJson ⟨"uid-4", "openshift-foo", ⟨[5]⟩⟩ podBare).PatchType
          ≠ none) ∧
    ¬ ((mutateResponse sampleJson ⟨"uid-4", "openshift-foo", ⟨[5]⟩⟩ podBare).AuditAnnotations
          ≠ [] ↔
        builtOps sampleJson "openshift-foo" podBare ≠ []) := by
  refine ⟨rfl, rfl, rfl, by decide, by decide, by decide, by decide⟩

/-- C3: on a successful run with a request whose namespace does not begin with
`openshift-`, the response carries no patch, no patchType and no auditAnnotations, while
`allowed` is true and `result.status` is `Success`, whatever the pod holds. -/
theorem C3_closed_gate_no_patch (J : Json) (body : Bytes) (v : Bool) (out : Bytes)
    (review : AdmissionReview) (ar : AdmissionRequest)
    (hdec : J.unmarshalReview body = .ok review) (hreq : review.Request = some ar)
    (hns : stringsHasPrefix ar.Namespace "openshift-" = false)
    (hok : Mutate J body v = .ok out) :
    ∃ pod resp, J.unmarshalPod ar.Object.Raw = .ok pod ∧ resp = mutateResponse J ar pod ∧
      J.marshalReview { review with Response := some resp } = .ok out ∧
      resp.Patch = [] ∧ resp.PatchType = none ∧ resp.AuditAnnotations = [] ∧
      resp.Allowed = true ∧ resp.Result = some { Status := "Success" } := by
  obtain ⟨pod, hpod, hout⟩ := Mutate_ok_inv J body v out review ar hdec hreq hok
  refine ⟨pod, _, hpod, rfl, hout, ?_⟩
  have hg : gateOpen ar.Namespace = false := by rw [gateOpen_eq]; exact hns
  rw [mutateResponse_closed J ar pod hg]
  simp

/-- C3, scenario (b): namespace `default`, requests `cpu=500m, memory=512Mi`, limits
`cpu=1, memory=1Gi`; the empty namespace and `Openshift-console` do not open the gate
either. -/
theorem C3_closed_gate_no_patch_witness :
    stringsHasPrefix "" "openshift-" = false ∧
    stringsHasPrefix "Openshift-console" "openshift-" = false ∧
    stringsHasPrefix "default" "openshift-" = false ∧
    sampleJson.unmarshalPod [1] = .ok podDefault ∧
    Mutate sampleJson [1, 1] false = .ok [123, 125] ∧
    ∃ pod resp, sampleJson.unmarshalPod [1] = .ok pod ∧
      resp = mutateResponse sampleJson ⟨"uid-1", "default", ⟨[1]⟩⟩ pod ∧
      sampleJson.marshalReview
        { Request := some ⟨"uid-1", "default", ⟨[1]⟩⟩, Response := some resp } =
          .ok [123, 125] ∧
      resp.Patch = [] ∧ resp.PatchType = none ∧ resp.AuditAnnotations = [] ∧
      resp.Allowed = true ∧ resp.Result = some { Status := "Success" } :=
  ⟨by decide, by decide, by decide, rfl, rfl,
    C3_closed_gate_no_patch sampleJson [1, 1] false [123, 125]
      { Request := some ⟨"uid-1", "default", ⟨[1]⟩⟩, Response := none }
      ⟨"uid-1", "default", ⟨[1]⟩⟩ rfl rfl (by decide) rfl⟩

/-- C4: `Mutate` fails exactly when the body does not decode as an envelope, or the
request is present and its object does not decode as a pod; on every other body it
returns bytes.  An object that does not decode fails whatever the namespace, and without
a request the pod decoder has no part in the result. -/
theorem C4_failure_iff_decode_error (J : Json) (hm : J.EncodesReviews) (body : Bytes)
    (v : Bool) :
    ((∃ e, Mutate J body v = .error e) ↔
      ((∃ e, J.unmarshalReview body = .error e) ∨
        ∃ review ar e, J.unmarshalReview body = .ok review ∧ review.Request = some ar ∧
          J.unmarshalPod ar.Object.Raw = .error e)) ∧
    ((¬ ((∃ e, J.unmarshalReview body = .error e) ∨
        ∃ review ar e, J.unmarshalReview body = .ok review ∧ review.Request = some ar ∧
          J.unmarshalPod ar.Object.Raw = .error e)) → ∃ out, Mutate J body v = .ok out) ∧
    (∀ review ar e, J.unmarshalReview body = .ok review → review.Request = some ar →
      J.unmarshalPod ar.Object.Raw = .error e →
      Mutate J body v = .error ("unable unmarshal pod json object " ++ e)) ∧
    (∀ review, J.unmarshalReview body = .ok review → review.Request = none →
      ∀ f : Bytes → Except String Pod,
        Mutate { J with unmarshalPod := f } body v = Mutate J body v) := by
  cases hdec : J.unmarshalReview body with
  | error e0 =>
    refine ⟨?_, ?_, ?_, ?_⟩
    · simp [Mutate, hdec]
    · intro h; exact absurd (Or.inl ⟨e0, rfl⟩) h
    · intro review ar e h; cases h
    · intro review h; cases h
  | ok review =>
    cases hreq : review.Request with
    | none =>
      refine ⟨?_, ?_, ?_, ?_⟩
      · have hgood : Mutate J body v = .ok [] := by simp [Mutate, hdec, hreq]
        constructor
        · rintro ⟨e, he⟩; rw [hgood] at he; cases he
        · rintro (⟨e, he⟩ | ⟨r, a, e, hr, ha, he⟩)
          · cases he
          · cases hr
            rw [hreq] at ha
            cases ha
      · intro _; exact ⟨[], by simp [Mutate, hdec, hreq]⟩
      · intro r a e hr ha
        cases hr
        rw [hreq] at ha
        cases ha
      · intro r hr _ f
        cases hr
        simp [Mutate, hdec, hreq]
    | some ar =>
      cases hpod : J.unmarshalPod ar.Object.Raw with
      | error e1 =>
        have hfail : Mutate J body v = .error ("unable unmarshal pod json object " ++ e1) := by
          simp [Mutate, hdec, hreq, hpod]
        refine ⟨?_, ?_, ?_, ?_⟩
        · constructor
          · intro _; exact Or.inr ⟨review, ar, e1, rfl, hreq, hpod⟩
          · intro _; exact ⟨_, hfail⟩
        · intro h; exact absurd (Or.inr ⟨review, ar, e1, rfl, hreq, hpod⟩) h
        · intro r a e hr ha he
          cases hr
          rw [hreq] at ha
          cases ha
          rw [hpod] at he
          cases he
          exact hfail
        · intro r hr hn
          cases hr
          rw [hreq] at hn
          cases hn
      | ok pod =>
        obtain ⟨b, hb⟩ := hm { review with Response := some (mutateResponse J ar pod) }
        rw [hreq] at hb
        have hgood : Mutate J body v = .ok b := by
          simp [Mutate, hdec, hreq, hpod, hb]
        refine ⟨?_, ?_, ?_, ?_⟩
        · constructor
          · rintro ⟨e, he⟩; rw [hgood] at he; cases he
          · rintro (⟨e, he⟩ | ⟨r, a, e, hr, ha, he⟩)
            · cases he
            · cases hr
              rw [hreq] at ha
              cases ha
              rw [hpod] at he
              cases he
        · intro _; exact ⟨b, hgood⟩
        · intro r a e hr ha he
          cases hr
          rw [hreq] at ha
          cases ha
          rw [hpod] at he
          cases he
        · intro r hr hn
          cases hr
          rw [hreq] at hn
          cases hn

/-- C4 on three bodies: the malformed body `[]`; the body `[1, 9]`, whose object does not
decode, in the namespace `default` that would not be patched; the body `[0]` without a
request. -/
theorem C4_failure_iff_decode_error_witness :
    sampleJson.EncodesReviews ∧
    Mutate sampleJson [] false =
      .error "unmarshaling request failed with unexpected end of JSON input" ∧
    stringsHasPrefix "default" "openshift-" = false ∧
    Mutate sampleJson [1, 9] false =
      .error "unable unmarshal pod json object unexpected end of JSON input" ∧
    Mutate sampleJson [0] false = .ok [] ∧
    ((∃ e, Mutate sampleJson [1, 9] false = .error e) ↔
      ((∃ e, sampleJson.unmarshalReview [1, 9] = .error e) ∨
        ∃ review ar e, sampleJson.unmarshalReview [1, 9] = .ok review ∧
          review.Request = some ar ∧ sampleJson.unmarshalPod ar.Object.Raw = .error e)) :=
  ⟨sampleJson_encodesReviews, rfl, by decide, rfl, rfl,
    (C4_failure_iff_decode_error sampleJson sampleJson_encodesReviews [1, 9] false).1⟩

/-- C6: in every namespace that begins with `openshift-`, the four names of the
commented-out exclusions among them, a decodable pod with a resource field other than `0`
makes `Mutate` succeed with a response whose patch is present and is the encoding of a
non-empty operation list. -/
theorem C6_open_gate_patches (J : Json) (hm : J.EncodesReviews) (hp : J.EncodesPatches)
    (body : Bytes) (v : Bool) (review : AdmissionReview) (ar : AdmissionRequest) (pod : Pod)
    (hdec : J.unmarshalReview body = .ok review) (hreq : review.Request = some ar)
    (hns : stringsHasPrefix ar.Namespace "openshift-" = true)
    (hpod : J.unmarshalPod ar.Object.Raw = .ok pod) (hfield : pod.hasResourceField) :
    ∃ out resp, Mutate J body v = .ok out ∧ resp = mutateResponse J ar pod ∧
      J.marshalReview { review with Response := some resp } = .ok out ∧
      resp.Patch ≠ [] ∧ builtOps J ar.Namespace pod ≠ [] ∧
      J.marshalPatch (builtOps J ar.Namespace pod) = .ok resp.Patch := by
  have hg : gateOpen ar.Namespace = true := by rw [gateOpen_eq]; exact hns
  have hops : builtOps J ar.Namespace pod ≠ [] := by
    rw [builtOps_eq_specOps]
    exact specOps_ne_nil ar.Namespace pod hfield
  obtain ⟨b, hb⟩ := hm { review with Response := some (mutateResponse J ar pod) }
  have hgood : Mutate J body v = .ok b := by
    rw [hreq] at hb
    simp [Mutate, hdec, hreq, hpod, hb]
  refine ⟨b, _, hgood, rfl, hb, ?_⟩
  rw [mutateResponse_open J ar pod hg]
  simp only [hops, if_false]
  exact ⟨(marshaledPatch_ne_nil J hp _).1, hops, (marshaledPatch_ne_nil J hp _).2⟩

/-- C6, scenario (d): in `openshift-etcd`, one container with only requests `cpu=1` gives
a patch of exactly one operation, the replacement of `requests/cpu` on index 0 by `600m`. -/
theorem C6_open_gate_patches_witness :
    sampleJson.EncodesReviews ∧ sampleJson.EncodesPatches ∧
    stringsHasPrefix "openshift-kube-apiserver" "openshift-" = true ∧
    stringsHasPrefix "openshift-kube-controller-manager" "openshift-" = true ∧
    stringsHasPrefix "openshift-kube-scheduler" "openshift-" = true ∧
    stringsHasPrefix "openshift-etcd" "openshift-" = true ∧
    podEtcd.hasResourceField ∧
    builtOps sampleJson "openshift-etcd" podEtcd =
      [[("op", "replace"), ("path", "/spec/containers/0/resources/requests/cpu"),
        ("value", "600m")]] ∧
    Mutate sampleJson [3, 3] false = .ok [123, 91, 3, 93, 125] ∧
    ∃ out resp, Mutate sampleJson [3, 3] false = .ok out ∧
      resp = mutateResponse sampleJson ⟨"uid-3", "openshift-etcd", ⟨[3]⟩⟩ podEtcd ∧
      sampleJson.marshalReview
        { Request := some ⟨"uid-3", "openshift-etcd", ⟨[3]⟩⟩, Response := some resp } =
          .ok out ∧
      resp.Patch ≠ [] ∧ builtOps sampleJson "openshift-etcd" podEtcd ≠ [] ∧
      sampleJson.marshalPatch (builtOps sampleJson "openshift-etcd" podEtcd) =
        .ok resp.Patch :=
  ⟨sampleJson_encodesReviews, sampleJson_encodesPatches, by decide, by decide, by decide,
    by decide, ⟨_, List.mem_singleton.mpr rfl, Or.inr (Or.inl (by decide))⟩, by decide, rfl,
    C6_open_gate_patches sampleJson sampleJson_encodesReviews sampleJson_encodesPatches
      [3, 3] false { Request := some ⟨"uid-3", "openshift-etcd", ⟨[3]⟩⟩, Response := none }
      ⟨"uid-3", "openshift-etcd", ⟨[3]⟩⟩ podEtcd rfl rfl (by decide) rfl
      ⟨_, List.mem_singleton.mpr rfl, Or.inr (Or.inl (by decide))⟩⟩

/-- C7: on an envelope without a request `Mutate` returns the zero-length body and no
error; the pod decoder and the two encoders have no part in the result, so nothing is
decoded, gated, patched or serialized. -/
theorem C7_absent_request (J : Json) (body : Bytes) (v : Bool) (review : AdmissionReview)
    (hdec : J.unmarshalReview body = .ok review) (hreq : review.Request = none) :
    Mutate J body v = .ok [] ∧
    ∀ (f : Bytes → Except String Pod) (g : List PatchOp → Except String Bytes)
      (h : AdmissionReview → Except String Bytes),
      Mutate { unmarshalReview := J.unmarshalReview, unmarshalPod := f, marshalPatch := g,
               marshalReview := h } body v = .ok [] := by
  constructor
  · simp [Mutate, hdec, hreq]
  · intro f g h
    simp [Mutate, hdec, hreq]

/-- C7, scenario (a): the body `[0]` of the sample library is an envelope without a
request. -/
theorem C7_absent_request_witness :
    sampleJson.unmarshalReview [0] = .ok { Request := none, Response := none } ∧
    Mutate sampleJson [0] false = .ok [] ∧
    ∀ (f : Bytes → Except String Pod) (g : List PatchOp → Except String Bytes)
      (h : AdmissionReview → Except String Bytes),
      Mutate { unmarshalReview := sampleJson.unmarshalReview, unmarshalPod := f,
               marshalPatch := g, marshalReview := h } [0] false = .ok [] :=
  ⟨rfl, C7_absent_request sampleJson [0] false { Request := none, Response := none } rfl rfl⟩

/-- C8: on a successful run with a request present, the uid of the response is the uid
of the request, in an open gate and in a closed one, with a patch and without. -/
theorem C8_uid_echoed (J : Json) (body : Bytes) (v : Bool) (out : Bytes)
    (review : AdmissionReview) (ar : AdmissionRequest)
    (hdec : J.unmarshalReview body = .ok review) (hreq : review.Request = some ar)
    (hok : Mutate J body v = .ok out) :
    ∃ pod resp, J.unmarshalPod ar.Object.Raw = .ok pod ∧ resp = mutateResponse J ar pod ∧
      J.marshalReview { review with Response := some resp } = .ok out ∧
      resp.UID = ar.UID := by
  obtain ⟨pod, hpod, hout⟩ := Mutate_ok_inv J body v out review ar hdec hreq hok
  refine ⟨pod, _, hpod, rfl, hout, ?_⟩
  by_cases hg : gateOpen ar.Namespace = true
  · rw [mutateResponse_open J ar pod hg]
  · rw [mutateResponse_closed J ar pod (by simpa using hg)]

/-- C8 on the body `[2, 2]`: `openshift-console` and the pod of scenario (c), a run that
emits a patch. -/
theorem C8_uid_echoed_witness :
    Mutate sampleJson [2, 2] false = .ok [123, 91, 3, 3, 2, 2, 93, 125] ∧
    ∃ pod resp, sampleJson.unmarshalPod [2] = .ok pod ∧
      resp = mutateResponse sampleJson ⟨"uid-2", "openshift-console", ⟨[2]⟩⟩ pod ∧
      sampleJson.marshalReview
        { Request := some ⟨"uid-2", "openshift-console", ⟨[2]⟩⟩, Response := some resp } =
          .ok [123, 91, 3, 3, 2, 2, 93, 125] ∧
      resp.UID = "uid-2" :=
  ⟨rfl, C8_uid_echoed sampleJson [2, 2] false [123, 91, 3, 3, 2, 2, 93, 125]
    { Request := some ⟨"uid-2", "openshift-console", ⟨[2]⟩⟩, Response := none }
    ⟨"uid-2", "openshift-console", ⟨[2]⟩⟩ rfl rfl rfl⟩

/-- C9: on a successful run with a request present, the response has `allowed` true
and `result.status` equal to `Success`, for every namespace and every pod. -/
theorem C9_always_allowed (J : Json) (body : Bytes) (v : Bool) (out : Bytes)
    (review : AdmissionReview) (ar : AdmissionRequest)
    (hdec : J.unmarshalReview body = .ok review) (hreq : review.Request = some ar)
    (hok : Mutate J body v = .ok out) :
    ∃ pod resp, J.unmarshalPod ar.Object.Raw = .ok pod ∧ resp = mutateResponse J ar pod ∧
      J.marshalReview { review with Response := some resp } = .ok out ∧
      resp.Allowed = true ∧ resp.Result = some { Status := "Success" } := by
  obtain ⟨pod, hpod, hout⟩ := Mutate_ok_inv J body v out review ar hdec hreq hok
  refine ⟨pod, _, hpod, rfl, hout, ?_⟩
  by_cases hg : gateOpen ar.Namespace = true
  · rw [mutateResponse_open J ar pod hg]
    exact ⟨rfl, rfl⟩
  · rw [mutateResponse_closed J ar pod (by simpa using hg)]
    exact ⟨rfl, rfl⟩

/-- C9 on the body `[4, 4]`: `openshift-foo` and the two containers of scenario (e). -/
theorem C9_always_allowed_witness :
    Mutate sampleJson [4, 4] true = .ok [123, 91, 3, 93, 125] ∧
    ∃ pod resp, sampleJson.unmarshalPod [4] = .ok pod ∧
      resp = mutateResponse sampleJson ⟨"uid-4", "openshift-foo", ⟨[4]⟩⟩ pod ∧
      sampleJson.marshalReview
        { Request := some ⟨"uid-4", "openshift-foo", ⟨[4]⟩⟩, Response := some resp } =
          .ok [123, 91, 3, 93, 125] ∧
      resp.Allowed = true ∧ resp.Result = some { Status := "Success" } :=
  ⟨rfl, C9_always_allowed sampleJson [4, 4] true [123, 91, 3, 93, 125]
    { Request := some ⟨"uid-4", "openshift-foo", ⟨[4]⟩⟩, Response := none }
    ⟨"uid-4", "openshift-foo", ⟨[4]⟩⟩ rfl rfl rfl⟩

/-! ## Paths determine their key -/

/-- A decimal digit is read back from its character. -/
theorem digitChar_read (k : Nat) (hk : k < 10) :
    (Nat.digitChar k).isDigit = true ∧ (Nat.digitChar k).toNat - 48 = k := by
  interval_cases k <;> exact ⟨by decide, by decide⟩

/-- The digits are written in front of the accumulator. -/
theorem toDigitsCore_append (fuel : Nat) :
    ∀ (n : Nat) (ds tl : List Char),
      Nat.toDigitsCore 10 fuel n ds ++ tl = Nat.toDigitsCore 10 fuel n (ds ++ tl) := by
  induction fuel with
  | zero => intro n ds tl; simp [Nat.toDigitsCore]
  | succ fuel ih =>
    intro n ds tl
    simp only [Nat.toDigitsCore]
    split
    · simp
    · rw [ih]; simp

/-- Reading the digits of `n` gives `n` back. -/
theorem leadingNat_toDigitsCore (fuel : Nat) :
    ∀ (n : Nat) (ds : List Char), n < fuel →
      leadingNat 0 (Nat.toDigitsCore 10 fuel n ds) = leadingNat n ds := by
  induction fuel with
  | zero => intro n ds h; omega
  | succ fuel ih =>
    intro n ds h
    obtain ⟨hd, hv⟩ := digitChar_read (n % 10) (Nat.mod_lt _ (by decide))
    simp only [Nat.toDigitsCore]
    split
    · rename_i h0
      have hn : n % 10 = n := by omega
      rw [hn] at hd hv
      simp [leadingNat, hd, hv, hn]
    · rename_i h0
      rw [ih (n / 10) _ (by omega)]
      have : n / 10 * 10 + n % 10 = n := by omega
      simp [leadingNat, hd, hv, this]

/-- The index is read back from a path. -/
theorem pathIndex_fieldPath (i : Nat) (f : ResourceField) : pathIndex (fieldPath i f) = i := by
  have hs : ∃ r, f.suffix.toList = '/' :: r := by
    cases f <;> exact ⟨_, rfl⟩
  obtain ⟨r, hr⟩ := hs
  have h17 : ("/spec/containers/" : String).toList.length = 17 := by decide
  have hrepr : (toString i : String).toList = Nat.toDigitsCore 10 (i + 1) i [] := rfl
  unfold pathIndex fieldPath
  simp only [String.toList, String.data_append] at *
  rw [List.append_assoc, List.drop_left' h17, hr, hrepr, toDigitsCore_append,
    leadingNat_toDigitsCore _ _ _ (by omega)]
  simp [leadingNat]

/-- A path determines the container index and the field. -/
theorem fieldPath_inj (i j : Nat) (f g : ResourceField) (h : fieldPath i f = fieldPath j g) :
    i = j ∧ f = g := by
  have hij : i = j := by
    have := congrArg pathIndex h
    simpa [pathIndex_fieldPath] using this
  subst hij
  refine ⟨rfl, ?_⟩
  have hd : (fieldPath i f).toList = (fieldPath i g).toList := by rw [h]
  unfold fieldPath at hd
  simp only [String.toList, String.data_append, List.append_assoc] at hd
  have hs : f.suffix.data = g.suffix.data := by
    have := List.append_cancel_left hd
    exact List.append_cancel_left this
  cases f <;> cases g <;> first | rfl | (exfalso; revert hs; decide)

/-! ## Order of the operations -/

/-- The operations of one container are the operations of its keys. -/
theorem specContainerOps_eq_keys (ns : String) (i : Nat) (c : Container) :
    specContainerOps ns i c = (containerKeys i c).map (keyOp ns) := by
  unfold specContainerOps containerKeys
  simp only [ResourceField.text, List.filter, keyOp]
  by_cases h1 : c.Resources.Requests.Memory.String = "0" <;>
  by_cases h2 : c.Resources.Requests.Cpu.String = "0" <;>
  by_cases h3 : c.Resources.Limits.Memory.String = "0" <;>
  by_cases h4 : c.Resources.Limits.Cpu.String = "0" <;>
  simp [h1, h2, h3, h4, keyOp]

/-- The operations of the containers numbered from `i` are the operations of their keys. -/
theorem specOpsFrom_eq_keys (ns : String) (cs : List Container) :
    ∀ i : Nat,
      ((cs.enumFrom i).map (fun ic => specContainerOps ns ic.1 ic.2)).flatten =
        (emittedKeysFrom i cs).map (keyOp ns) := by
  induction cs with
  | nil => intro i; simp [emittedKeysFrom]
  | cons c cs ih =>
    intro i
    have hrest := ih (i + 1)
    unfold emittedKeysFrom at hrest
    simp only [emittedKeysFrom, List.enumFrom_cons, List.map_cons, List.flatten_cons,
      List.map_append]
    rw [specContainerOps_eq_keys, hrest]

/-- The operation list of a pod is the list of the operations of its keys. -/
theorem specOps_eq_keys (ns : String) (pod : Pod) :
    specOps ns pod = (emittedKeys pod).map (keyOp ns) :=
  specOpsFrom_eq_keys ns pod.Spec.Containers 0

/-- The path of the operation of a key. -/
theorem opPath_keyOp (ns : String) (k : Nat × ResourceField) :
    opPath (keyOp ns k) = some (fieldPath k.1 k.2) := by
  obtain ⟨i, f⟩ := k
  cases f <;> rfl

/-- The keys of one container carry its index and come in increasing rank. -/
theorem containerKeys_sorted (i : Nat) (c : Container) :
    (containerKeys i c).Pairwise keyLt ∧ ∀ k ∈ containerKeys i c, k.1 = i := by
  constructor
  · unfold containerKeys
    rw [List.pairwise_map]
    apply List.Pairwise.filter
    simp [keyLt, ResourceField.rank]
  · intro k hk
    unfold containerKeys at hk
    simp only [List.mem_map] at hk
    obtain ⟨f, _, rfl⟩ := hk
    rfl

/-- The keys of the containers numbered from `i` are strictly increasing and their
indices are at least `i`. -/
theorem emittedKeysFrom_sorted (cs : List Container) :
    ∀ i : Nat, (emittedKeysFrom i cs).Pairwise keyLt ∧
      ∀ k ∈ emittedKeysFrom i cs, i ≤ k.1 := by
  induction cs with
  | nil => intro i; simp [emittedKeysFrom]
  | cons c cs ih =>
    intro i
    have hstep : emittedKeysFrom i (c :: cs) = containerKeys i c ++ emittedKeysFrom (i + 1) cs := by
      simp [emittedKeysFrom]
    obtain ⟨hc, hci⟩ := containerKeys_sorted i c
    obtain ⟨hr, hri⟩ := ih (i + 1)
    rw [hstep]
    constructor
    · rw [List.pairwise_append]
      refine ⟨hc, hr, ?_⟩
      intro a ha b hb
      have h1 := hci a ha
      have h2 := hri b hb
      exact Or.inl (by omega)
    · intro k hk
      rcases List.mem_append.mp hk with h | h
      · have := hci k h; omega
      · have := hri k h; omega

/-- Two keys in order have different paths. -/
theorem keyLt_path_ne (a b : Nat × ResourceField) (h : keyLt a b) :
    some (fieldPath a.1 a.2) ≠ some (fieldPath b.1 b.2) := by
  intro heq
  obtain ⟨h1, h2⟩ := fieldPath_inj _ _ _ _ (Option.some.inj heq)
  rcases h with h | ⟨_, h⟩
  · omega
  · rw [h2] at h; omega

/-- C10: in an open gate the emitted operations are the operations of a list of keys
(container index, field) that is strictly increasing in the lexicographic order with
`requests.memory < requests.cpu < limits.memory < limits.cpu`; each operation carries the
path of its key, a path determines its key, and no two operations have the same path. -/
theorem C10_operations_strictly_ordered (J : Json) (ns : String) (pod : Pod)
    (_hgate : stringsHasPrefix ns "openshift-" = true) :
    builtOps J ns pod = (emittedKeys pod).map (keyOp ns) ∧
    (emittedKeys pod).Pairwise keyLt ∧
    (builtOps J ns pod).map opPath =
      (emittedKeys pod).map (fun k => some (fieldPath k.1 k.2)) ∧
    (∀ (i j : Nat) (f g : ResourceField), fieldPath i f = fieldPath j g → i = j ∧ f = g) ∧
    ((builtOps J ns pod).map opPath).Nodup := by
  have hops : builtOps J ns pod = (emittedKeys pod).map (keyOp ns) := by
    rw [builtOps_eq_specOps, specOps_eq_keys]
  have hsorted := (emittedKeysFrom_sorted pod.Spec.Containers 0).1
  have hpaths : (builtOps J ns pod).map opPath =
      (emittedKeys pod).map (fun k => some (fieldPath k.1 k.2)) := by
    rw [hops, List.map_map]
    apply List.map_congr_left
    intro k _
    exact opPath_keyOp ns k
  refine ⟨hops, hsorted, hpaths, fieldPath_inj, ?_⟩
  rw [hpaths, List.Nodup, List.pairwise_map]
  exact hsorted.imp (fun {a b} h => keyLt_path_ne a b h)

/-- C10 on the pod of scenario (c) in `openshift-console`: four keys on index 0, in
rank order, and four different paths. -/
theorem C10_operations_strictly_ordered_witness :
    stringsHasPrefix "openshift-console" "openshift-" = true ∧
    emittedKeys podConsole =
      [(0, .requestsMemory), (0, .requestsCpu), (0, .limitsMemory), (0, .limitsCpu)] ∧
    (builtOps sampleJson "openshift-console" podConsole).map opPath =
      [some "/spec/containers/0/resources/requests/memory",
       some "/spec/containers/0/resources/requests/cpu",
       some "/spec/containers/0/resources/limits/memory",
       some "/spec/containers/0/resources/limits/cpu"] ∧
    (builtOps sampleJson "openshift-console" podConsole =
        (emittedKeys podConsole).map (keyOp "openshift-console") ∧
      (emittedKeys podConsole).Pairwise keyLt ∧
      (builtOps sampleJson "openshift-console" podConsole).map opPath =
        (emittedKeys podConsole).map (fun k => some (fieldPath k.1 k.2)) ∧
      (∀ (i j : Nat) (f g : ResourceField), fieldPath i f = fieldPath j g → i = j ∧ f = g) ∧
      ((builtOps sampleJson "openshift-console" podConsole).map opPath).Nodup) :=
  ⟨by decide, by decide, by decide,
    C10_operations_strictly_ordered sampleJson "openshift-console" podConsole (by decide)⟩

/-! ## Which keys are emitted -/

/-- The keys of one container: its index with each field whose text is not `0`. -/
theorem mem_containerKeys (i : Nat) (c : Container) (k : Nat × ResourceField) :
    k ∈ containerKeys i c ↔ k.1 = i ∧ k.2.text c ≠ "0" := by
  obtain ⟨j, f⟩ := k
  unfold containerKeys
  simp only [List.mem_map, List.mem_filter, Prod.mk.injEq, decide_eq_true_eq]
  constructor
  · rintro ⟨g, ⟨_, hg⟩, rfl, rfl⟩
    exact ⟨rfl, hg⟩
  · rintro ⟨rfl, hf⟩
    exact ⟨f, ⟨by cases f <;> simp, hf⟩, rfl, rfl⟩

/-- The keys of the containers numbered from `i`: a key belongs to the container at
its own index. -/
theorem mem_emittedKeysFrom (cs : List Container) :
    ∀ (i : Nat) (k : Nat × ResourceField),
      k ∈ emittedKeysFrom i cs ↔
        i ≤ k.1 ∧ ∃ c, cs[k.1 - i]? = some c ∧ k.2.text c ≠ "0" := by
  induction cs with
  | nil => intro i k; simp [emittedKeysFrom]
  | cons d ds ih =>
    intro i k
    have hstep : emittedKeysFrom i (d :: ds) =
        containerKeys i d ++ emittedKeysFrom (i + 1) ds := by
      simp [emittedKeysFrom]
    rw [hstep, List.mem_append, mem_containerKeys, ih]
    constructor
    · rintro (⟨h1, h2⟩ | ⟨h1, c, h2, h3⟩)
      · refine ⟨by omega, d, ?_, h2⟩
        have : k.1 - i = 0 := by omega
        simp [this]
      · refine ⟨by omega, c, ?_, h3⟩
        have : k.1 - i = (k.1 - (i + 1)) + 1 := by omega
        rw [this, List.getElem?_cons_succ]
        exact h2
    · rintro ⟨h1, c, h2, h3⟩
      by_cases hk : k.1 = i
      · left
        have : k.1 - i = 0 := by omega
        rw [this] at h2
        simp at h2
        subst h2
        exact ⟨hk, h3⟩
      · right
        have : k.1 - i = (k.1 - (i + 1)) + 1 := by omega
        rw [this, List.getElem?_cons_succ] at h2
        exact ⟨by omega, c, h2, h3⟩

/-- The keys of a pod: the pairs of a position in `spec.containers` and a field of the
container at that position whose text is not `0`. -/
theorem mem_emittedKeys (pod : Pod) (k : Nat × ResourceField) :
    k ∈ emittedKeys pod ↔ ∃ c, pod.Spec.Containers[k.1]? = some c ∧ k.2.text c ≠ "0" := by
  unfold emittedKeys
  rw [mem_emittedKeysFrom]
  simp

/-- The path of a field, spelled in its parts. -/
theorem fieldPath_form (i : Nat) (f : ResourceField) :
    fieldPath i f =
      "/spec/containers/" ++ toString i ++ "/resources/" ++ f.group ++ "/" ++ f.resource := by
  unfold fieldPath
  simp only [String.append_assoc]
  cases f <;> rfl

/-- The operations of a pod are the operations of its keys, whatever the library. -/
theorem builtOps_eq_keys (J : Json) (ns : String) (pod : Pod) :
    builtOps J ns pod = (emittedKeys pod).map (keyOp ns) := by
  rw [builtOps_eq_specOps, specOps_eq_keys]

/-- C11: in an open gate every emitted path is
`/spec/containers/i/resources/requests|limits/cpu|memory` with `i`, in decimal, the
position in `spec.containers` of the container whose field it names, below the number of
containers; and a container at position `i` with a field other than `0` yields the
operation with index `i`, whatever the containers before it yield. -/
theorem C11_paths_name_positions (J : Json) (ns : String) (pod : Pod)
    (_hgate : stringsHasPrefix ns "openshift-" = true) :
    (∀ op ∈ builtOps J ns pod, ∃ (i : Nat) (f : ResourceField) (c : Container),
      i < pod.Spec.Containers.length ∧ pod.Spec.Containers[i]? = some c ∧
      f.text c ≠ "0" ∧ op = keyOp ns (i, f) ∧
      opPath op = some ("/spec/containers/" ++ toString i ++ "/resources/" ++ f.group ++
        "/" ++ f.resource) ∧
      (f.group = "requests" ∨ f.group = "limits") ∧
      (f.resource = "cpu" ∨ f.resource = "memory")) ∧
    (∀ (i : Nat) (f : ResourceField) (c : Container),
      pod.Spec.Containers[i]? = some c → f.text c ≠ "0" →
      keyOp ns (i, f) ∈ builtOps J ns pod) := by
  rw [builtOps_eq_keys]
  constructor
  · intro op hop
    obtain ⟨k, hk, rfl⟩ := List.mem_map.mp hop
    obtain ⟨c, hc, hf⟩ := (mem_emittedKeys pod k).mp hk
    obtain ⟨i, f⟩ := k
    have hlt : i < pod.Spec.Containers.length := by
      by_contra hge
      have hnone : pod.Spec.Containers[i]? = none :=
        List.getElem?_eq_none (Nat.le_of_not_lt hge)
      rw [hnone] at hc
      cases hc
    refine ⟨i, f, c, hlt, hc, hf, rfl, ?_, ?_, ?_⟩
    · rw [opPath_keyOp, fieldPath_form]
    · cases f <;> simp [ResourceField.group]
    · cases f <;> simp [ResourceField.resource]
  · intro i f c hc hf
    exact List.mem_map.mpr ⟨(i, f), (mem_emittedKeys pod (i, f)).mpr ⟨c, hc, hf⟩, rfl⟩

/-- C11, scenario (e): in `openshift-foo`, a first container without resource fields and a
second one with requests `memory=1Gi` give exactly one operation, on index 1. -/
theorem C11_paths_name_positions_witness :
    stringsHasPrefix "openshift-foo" "openshift-" = true ∧
    builtOps sampleJson "openshift-foo" podTwo =
      [[("op", "replace"), ("path", "/spec/containers/1/resources/requests/memory"),
        ("value", "10Mi")]] ∧
    keyOp "openshift-foo" (1, .requestsMemory) ∈ builtOps sampleJson "openshift-foo" podTwo :=
  ⟨by decide, by decide,
    (C11_paths_name_positions sampleJson "openshift-foo" podTwo (by decide)).2 1
      .requestsMemory ⟨⟨[], [("memory", ⟨"1Gi"⟩)]⟩⟩ rfl (by decide)⟩

/-- C12: in an open gate every emitted operation is a `replace` or a `remove`; a
`replace` has the keys `op`, `path`, `value`, its path is a `requests` path and its value
is the minimum of the namespace for that resource; a `remove` has the keys `op`, `path`
only, no `value`, and its path is a `limits` path. -/
theorem C12_replace_requests_remove_limits (J : Json) (ns : String) (pod : Pod)
    (_hgate : stringsHasPrefix ns "openshift-" = true) :
    ∀ op ∈ builtOps J ns pod,
      (op.lookup "op" = some "replace" ∧ op.map Prod.fst = ["op", "path", "value"] ∧
        ((∃ i : Nat, op.lookup "path" =
              some ("/spec/containers/" ++ toString i ++ "/resources/requests/memory") ∧
            op.lookup "value" = some (getMinimalMemoryValue ns)) ∨
          (∃ i : Nat, op.lookup "path" =
              some ("/spec/containers/" ++ toString i ++ "/resources/requests/cpu") ∧
            op.lookup "value" = some (getMinimalCPUValue ns)))) ∨
      (op.lookup "op" = some "remove" ∧ op.map Prod.fst = ["op", "path"] ∧
        op.lookup "value" = none ∧
        ((∃ i : Nat, op.lookup "path" =
              some ("/spec/containers/" ++ toString i ++ "/resources/limits/memory")) ∨
          (∃ i : Nat, op.lookup "path" =
              some ("/spec/containers/" ++ toString i ++ "/resources/limits/cpu")))) := by
  intro op hop
  rw [builtOps_eq_keys] at hop
  obtain ⟨k, _, rfl⟩ := List.mem_map.mp hop
  obtain ⟨i, f⟩ := k
  cases f
  · exact Or.inl ⟨rfl, rfl, Or.inl ⟨i, rfl, rfl⟩⟩
  · exact Or.inl ⟨rfl, rfl, Or.inr ⟨i, rfl, rfl⟩⟩
  · exact Or.inr ⟨rfl, rfl, rfl, Or.inl ⟨i, rfl⟩⟩
  · exact Or.inr ⟨rfl, rfl, rfl, Or.inr ⟨i, rfl⟩⟩

/-- C12 on the pod of scenario (c) in `openshift-console`: the third operation is a
`remove` of a `limits` path without a value. -/
theorem C12_replace_requests_remove_limits_witness :
    stringsHasPrefix "openshift-console" "openshift-" = true ∧
    (builtOps sampleJson "openshift-console" podConsole).map (fun op => op.lookup "op") =
      [some "replace", some "replace", some "remove", some "remove"] ∧
    (builtOps sampleJson "openshift-console" podConsole).map (fun op => op.lookup "value") =
      [some "50Mi", some "100m", none, none] ∧
    ∀ op ∈ builtOps sampleJson "openshift-console" podConsole,
      (op.lookup "op" = some "replace" ∧ op.map Prod.fst = ["op", "path", "value"] ∧
        ((∃ i : Nat, op.lookup "path" =
              some ("/spec/containers/" ++ toString i ++ "/resources/requests/memory") ∧
            op.lookup "value" = some (getMinimalMemoryValue "openshift-console")) ∨
          (∃ i : Nat, op.lookup "path" =
              some ("/spec/containers/" ++ toString i ++ "/resources/requests/cpu") ∧
            op.lookup "value" = some (getMinimalCPUValue "openshift-console")))) ∨
      (op.lookup "op" = some "remove" ∧ op.map Prod.fst = ["op", "path"] ∧
        op.lookup "value" = none ∧
        ((∃ i : Nat, op.lookup "path" =
              some ("/spec/containers/" ++ toString i ++ "/resources/limits/memory")) ∨
          (∃ i : Nat, op.lookup "path" =
              some ("/spec/containers/" ++ toString i ++ "/resources/limits/cpu")))) :=
  ⟨by decide, by decide, by decide,
    C12_replace_requests_remove_limits sampleJson "openshift-console" podConsole (by decide)⟩

/-! ## Counting the operations -/

/-- The number of keys of one container. -/
theorem containerKeys_length (i : Nat) (c : Container) :
    (containerKeys i c).length = c.fieldCount := by
  unfold containerKeys Container.fieldCount
  simp only [List.length_map, List.filter, ResourceField.text]
  by_cases h1 : c.Resources.Requests.Memory.String = "0" <;>
  by_cases h2 : c.Resources.Requests.Cpu.String = "0" <;>
  by_cases h3 : c.Resources.Limits.Memory.String = "0" <;>
  by_cases h4 : c.Resources.Limits.Cpu.String = "0" <;>
  simp [h1, h2, h3, h4]

/-- The number of keys of the containers numbered from `i`. -/
theorem emittedKeysFrom_length (cs : List Container) :
    ∀ i : Nat, (emittedKeysFrom i cs).length = (cs.map Container.fieldCount).sum := by
  induction cs with
  | nil => intro i; simp [emittedKeysFrom]
  | cons c cs ih =>
    intro i
    have hstep : emittedKeysFrom i (c :: cs) = containerKeys i c ++ emittedKeysFrom (i + 1) cs := by
      simp [emittedKeysFrom]
    rw [hstep, List.length_append, containerKeys_length, ih]
    simp

/-- A container counts at most four fields. -/
theorem containerFieldCount_le (c : Container) : c.fieldCount ≤ 4 := by
  unfold Container.fieldCount
  split <;> split <;> split <;> split <;> omega

/-- A pod counts at most four fields for each container. -/
theorem podFieldCount_le (pod : Pod) : pod.fieldCount ≤ 4 * pod.Spec.Containers.length := by
  unfold Pod.fieldCount
  induction pod.Spec.Containers with
  | nil => simp
  | cons c cs ih =>
    have := containerFieldCount_le c
    simp only [List.map_cons, List.sum_cons, List.length_cons]
    omega

/-- C13: in a namespace that begins with `openshift-` the number of emitted operations is
the number of pairs (container, field) whose text is not `0`, hence at most four times
the number of containers. -/
theorem C13_operation_count (J : Json) (ns : String) (pod : Pod)
    (_hgate : stringsHasPrefix ns "openshift-" = true) :
    (builtOps J ns pod).length = pod.fieldCount ∧
    (builtOps J ns pod).length ≤ 4 * pod.Spec.Containers.length := by
  have h : (builtOps J ns pod).length = pod.fieldCount := by
    rw [builtOps_eq_keys, List.length_map]
    exact emittedKeysFrom_length pod.Spec.Containers 0
  exact ⟨h, h ▸ podFieldCount_le pod⟩

/-- C13 on the pods of scenarios (c) and (e): four operations for one container with
four fields, one operation for two containers with one field. -/
theorem C13_operation_count_witness :
    stringsHasPrefix "openshift-foo" "openshift-" = true ∧
    podConsole.fieldCount = 4 ∧ podTwo.fieldCount = 1 ∧
    (builtOps sampleJson "openshift-foo" podConsole).length = 4 ∧
    ((builtOps sampleJson "openshift-foo" podTwo).length = podTwo.fieldCount ∧
      (builtOps sampleJson "openshift-foo" podTwo).length ≤ 4 * podTwo.Spec.Containers.length) :=
  ⟨by decide, by decide, by decide, by decide,
    C13_operation_count sampleJson "openshift-foo" podTwo (by decide)⟩

/-! ## Absent fields -/

/-- The text of a field is the text of its entry, and `0` when the entry is absent. -/
theorem text_eq_entry (c : Container) (f : ResourceField) :
    f.text c = match f.entry c with
      | some q => q.String
      | none => "0" := by
  cases f <;>
  simp only [ResourceField.text, ResourceField.entry, ResourceField.list,
    ResourceField.resource, ResourceList.Memory, ResourceList.Cpu, ResourceList.Name] <;>
  split <;> simp_all [Quantity.zero, Quantity.String]

/-- A pod without resource fields has no key. -/
theorem emittedKeys_allUnset (pod : Pod) (h : pod.allUnset) : emittedKeys pod = [] := by
  apply List.eq_nil_iff_forall_not_mem.mpr
  intro k hk
  obtain ⟨c, hc, hf⟩ := (mem_emittedKeys pod k).mp hk
  have hmem : c ∈ pod.Spec.Containers := List.getElem?_mem hc
  have := text_eq_entry c k.2
  rw [h c hmem k.2] at this
  exact hf this

/-- C14: for a decodable pod with all four fields unset on every container, a pod
without containers included, in a namespace that begins with `openshift-`, `Mutate`
succeeds, the operation list is empty, and the response is an allowed response without
a patch. -/
theorem C14_unset_fields_no_patch (J : Json) (hm : J.EncodesReviews) (body : Bytes) (v : Bool)
    (review : AdmissionReview) (ar : AdmissionRequest) (pod : Pod)
    (hdec : J.unmarshalReview body = .ok review) (hreq : review.Request = some ar)
    (hns : stringsHasPrefix ar.Namespace "openshift-" = true)
    (hpod : J.unmarshalPod ar.Object.Raw = .ok pod) (hunset : pod.allUnset) :
    ∃ out resp, Mutate J body v = .ok out ∧ resp = mutateResponse J ar pod ∧
      J.marshalReview { review with Response := some resp } = .ok out ∧
      builtOps J ar.Namespace pod = [] ∧ resp.Patch = [] ∧ resp.Allowed = true ∧
      resp.Result = some { Status := "Success" } := by
  have hg : gateOpen ar.Namespace = true := by rw [gateOpen_eq]; exact hns
  have hops : builtOps J ar.Namespace pod = [] := by
    rw [builtOps_eq_keys, emittedKeys_allUnset pod hunset]
    rfl
  obtain ⟨b, hb⟩ := hm { review with Response := some (mutateResponse J ar pod) }
  have hgood : Mutate J body v = .ok b := by
    rw [hreq] at hb
    simp [Mutate, hdec, hreq, hpod, hb]
  refine ⟨b, _, hgood, rfl, hb, hops, ?_⟩
  rw [mutateResponse_open J ar pod hg]
  simp [hops]

/-- C14 on the body `[3, 5]`: `openshift-etcd` and one container without resource
fields; the pod without containers has no field either. -/
theorem C14_unset_fields_no_patch_witness :
    sampleJson.EncodesReviews ∧ podBare.allUnset ∧ podEmpty.allUnset ∧
    builtOps sampleJson "openshift-etcd" podEmpty = [] ∧
    Mutate sampleJson [3, 5] false = .ok [123, 125] ∧
    ∃ out resp, Mutate sampleJson [3, 5] false = .ok out ∧
      resp = mutateResponse sampleJson ⟨"uid-3", "openshift-etcd", ⟨[5]⟩⟩ podBare ∧
      sampleJson.marshalReview
        { Request := some ⟨"uid-3", "openshift-etcd", ⟨[5]⟩⟩, Response := some resp } =
          .ok out ∧
      builtOps sampleJson "openshift-etcd" podBare = [] ∧ resp.Patch = [] ∧
      resp.Allowed = true ∧ resp.Result = some { Status := "Success" } :=
  have hbare : podBare.allUnset := by
    intro c hc f
    rw [List.mem_singleton.mp hc]
    cases f <;> rfl
  have hempty : podEmpty.allUnset := by
    intro c hc
    cases hc
  ⟨sampleJson_encodesReviews, hbare, hempty, by decide, rfl,
    C14_unset_fields_no_patch sampleJson sampleJson_encodesReviews [3, 5] false
      { Request := some ⟨"uid-3", "openshift-etcd", ⟨[5]⟩⟩, Response := none }
      ⟨"uid-3", "openshift-etcd", ⟨[5]⟩⟩ podBare rfl rfl (by decide) rfl hbare⟩

/-- C15: in an open gate every emitted operation is the operation of a field of the
container at the position that its path names, and the map of that container contains
the key of that field. -/
theorem C15_operations_target_present_fields (J : Json) (ns : String) (pod : Pod)
    (_hgate : stringsHasPrefix ns "openshift-" = true) :
    ∀ op ∈ builtOps J ns pod, ∃ (i : Nat) (f : ResourceField) (c : Container) (q : Quantity),
      pod.Spec.Containers[i]? = some c ∧ op = keyOp ns (i, f) ∧
      opPath op = some (fieldPath i f) ∧
      (f.list c).lookup f.resource = some q ∧ q.String ≠ "0" := by
  intro op hop
  rw [builtOps_eq_keys] at hop
  obtain ⟨k, hk, rfl⟩ := List.mem_map.mp hop
  obtain ⟨c, hc, hf⟩ := (mem_emittedKeys pod k).mp hk
  obtain ⟨i, f⟩ := k
  have ht := text_eq_entry c f
  cases he : f.entry c with
  | none =>
    rw [he] at ht
    exact absurd ht hf
  | some q =>
    rw [he] at ht
    refine ⟨i, f, c, q, hc, rfl, opPath_keyOp ns (i, f), he, ?_⟩
    intro hq
    exact hf (by simpa [hq] using ht)

/-- C15 on the pod of scenario (d) in `openshift-etcd`: the one operation targets
`requests/cpu` of container 0, whose requests contain `cpu`. -/
theorem C15_operations_target_present_fields_witness :
    stringsHasPrefix "openshift-etcd" "openshift-" = true ∧
    builtOps sampleJson "openshift-etcd" podEtcd = [keyOp "openshift-etcd" (0, .requestsCpu)] ∧
    ∀ op ∈ builtOps sampleJson "openshift-etcd" podEtcd,
      ∃ (i : Nat) (f : ResourceField) (c : Container) (q : Quantity),
        podEtcd.Spec.Containers[i]? = some c ∧ op = keyOp "openshift-etcd" (i, f) ∧
        opPath op = some (fieldPath i f) ∧
        (f.list c).lookup f.resource = some q ∧ q.String ≠ "0" :=
  ⟨by decide, by decide,
    C15_operations_target_present_fields sampleJson "openshift-etcd" podEtcd (by decide)⟩

/-- C16: in an open gate the patch that the loop leaves in the response, written inside
the loop in the iterations that yielded an operation, is the patch of a single
serialization of the complete list after the loop: its encoding when the list is not
empty, no patch when it is empty. -/
theorem C16_patch_is_serialized_once (J : Json) (ar : AdmissionRequest) (pod : Pod)
    (hgate : stringsHasPrefix ar.Namespace "openshift-" = true) :
    (patchLoop J ar.Namespace 0 pod.Spec.Containers { p := [], Patch := [] }).Patch =
      serializedOnce J (builtOps J ar.Namespace pod) ∧
    (mutateResponse J ar pod).Patch = serializedOnce J (builtOps J ar.Namespace pod) ∧
    (builtOps J ar.Namespace pod = [] → (mutateResponse J ar pod).Patch = []) ∧
    (builtOps J ar.Namespace pod ≠ [] →
      (mutateResponse J ar pod).Patch = marshaledPatch J (builtOps J ar.Namespace pod)) := by
  have hg : gateOpen ar.Namespace = true := by rw [gateOpen_eq]; exact hgate
  have hresp : (mutateResponse J ar pod).Patch =
      serializedOnce J (builtOps J ar.Namespace pod) := by
    rw [mutateResponse_open J ar pod hg]
    rfl
  refine ⟨builtPatch_eq J ar.Namespace pod, hresp, ?_, ?_⟩
  · intro h
    rw [hresp, h]
    rfl
  · intro h
    rw [hresp]
    simp [serializedOnce, h]

/-- C16 on a pod whose last two containers yield no operation: the patch is the
encoding of the one operation of the first container. -/
theorem C16_patch_is_serialized_once_witness :
    stringsHasPrefix "openshift-console" "openshift-" = true ∧
    builtOps sampleJson "openshift-console" podTrailing =
      [[("op", "replace"), ("path", "/spec/containers/0/resources/requests/cpu"),
        ("value", "100m")]] ∧
    (mutateResponse sampleJson ⟨"uid-2", "openshift-console", ⟨[]⟩⟩ podTrailing).Patch =
      [91, 3, 93] ∧
    serializedOnce sampleJson (builtOps sampleJson "openshift-console" podTrailing) =
      [91, 3, 93] ∧
    (mutateResponse sampleJson ⟨"uid-2", "openshift-console", ⟨[]⟩⟩ podTrailing).Patch =
      serializedOnce sampleJson (builtOps sampleJson "openshift-console" podTrailing) :=
  ⟨by decide, by decide, by decide, by decide,
    (C16_patch_is_serialized_once sampleJson ⟨"uid-2", "openshift-console", ⟨[]⟩⟩ podTrailing
      (by decide)).2.1⟩

/-- C17, as amended: on a successful run with a request present, a response that
carries auditAnnotations carries exactly the one entry of the webhook; it carries them
exactly when the namespace begins with `openshift-`, so every response with a patch has
them. -/
theorem C17_audit_annotations_amended (J : Json) (body : Bytes) (v : Bool) (out : Bytes)
    (review : AdmissionReview) (ar : AdmissionRequest)
    (hdec : J.unmarshalReview body = .ok review) (hreq : review.Request = some ar)
    (hok : Mutate J body v = .ok out) :
    ∃ pod resp, J.unmarshalPod ar.Object.Raw = .ok pod ∧ resp = mutateResponse J ar pod ∧
      J.marshalReview { review with Response := some resp } = .ok out ∧
      (resp.AuditAnnotations ≠ [] →
        resp.AuditAnnotations =
          [("crc-mutate-webhook",
            "initial resource requests been adjusted by crc-mutate-webhook")]) ∧
      (resp.AuditAnnotations ≠ [] ↔ stringsHasPrefix ar.Namespace "openshift-" = true) ∧
      (resp.Patch ≠ [] →
        resp.AuditAnnotations =
          [("crc-mutate-webhook",
            "initial resource requests been adjusted by crc-mutate-webhook")]) := by
  obtain ⟨pod, hpod, hout⟩ := Mutate_ok_inv J body v out review ar hdec hreq hok
  refine ⟨pod, _, hpod, rfl, hout, ?_⟩
  by_cases hg : gateOpen ar.Namespace = true
  · have hg2 : stringsHasPrefix ar.Namespace "openshift-" = true := by
      rw [← gateOpen_eq]; exact hg
    rw [mutateResponse_open J ar pod hg]
    simp [hg2]
  · have hg1 : gateOpen ar.Namespace = false := by simpa using hg
    have hg2 : stringsHasPrefix ar.Namespace "openshift-" = false := by
      rw [← gateOpen_eq]; exact hg1
    rw [mutateResponse_closed J ar pod hg1]
    simp [hg2]

/-- C17, as amended, on the body `[2, 2]`: `openshift-console` and the pod of scenario
(c), a response with a patch and the one audit annotation. -/
theorem C17_audit_annotations_amended_witness :
    Mutate sampleJson [2, 2] true = .ok [123, 91, 3, 3, 2, 2, 93, 125] ∧
    (mutateResponse sampleJson ⟨"uid-2", "openshift-console", ⟨[2]⟩⟩ podConsole).AuditAnnotations
      = [("crc-mutate-webhook",
          "initial resource requests been adjusted by crc-mutate-webhook")] ∧
    ∃ pod resp, sampleJson.unmarshalPod [2] = .ok pod ∧
      resp = mutateResponse sampleJson ⟨"uid-2", "openshift-console", ⟨[2]⟩⟩ pod ∧
      sampleJson.marshalReview
        { Request := some ⟨"uid-2", "openshift-console", ⟨[2]⟩⟩, Response := some resp } =
          .ok [123, 91, 3, 3, 2, 2, 93, 125] ∧
      (resp.AuditAnnotations ≠ [] →
        resp.AuditAnnotations =
          [("crc-mutate-webhook",
            "initial resource requests been adjusted by crc-mutate-webhook")]) ∧
      (resp.AuditAnnotations ≠ [] ↔
        stringsHasPrefix "openshift-console" "openshift-" = true) ∧
      (resp.Patch ≠ [] →
        resp.AuditAnnotations =
          [("crc-mutate-webhook",
            "initial resource requests been adjusted by crc-mutate-webhook")]) :=
  ⟨rfl, by decide,
    C17_audit_annotations_amended sampleJson [2, 2] true [123, 91, 3, 3, 2, 2, 93, 125]
      { Request := some ⟨"uid-2", "openshift-console", ⟨[2]⟩⟩, Response := none }
      ⟨"uid-2", "openshift-console", ⟨[2]⟩⟩ rfl rfl rfl⟩

/-- C17 fails as stated: in `openshift-console`, a pod whose one container has no
resource fields gets a response that carries the audit annotation and no patch. -/
theorem C17_counterexample :
    sampleJson.unmarshalReview [2, 5] =
      .ok { Request := some ⟨"uid-2", "openshift-console", ⟨[5]⟩⟩, Response := none } ∧
    sampleJson.unmarshalPod [5] = .ok podBare ∧
    Mutate sampleJson [2, 5] false = .ok [123, 125] ∧
    (mutateResponse sampleJson ⟨"uid-2", "openshift-console", ⟨[5]⟩⟩ podBare).AuditAnnotations
      = [("crc-mutate-webhook",
          "initial resource requests been adjusted by crc-mutate-webhook")] ∧
    (mutateResponse sampleJson ⟨"uid-2", "openshift-console", ⟨[5]⟩⟩ podBare).Patch = [] ∧
    ¬ ((mutateResponse sampleJson ⟨"uid-2", "openshift-console", ⟨[5]⟩⟩
          podBare).AuditAnnotations ≠ [] →
        (mutateResponse sampleJson ⟨"uid-2", "openshift-console", ⟨[5]⟩⟩ podBare).Patch
          ≠ []) := by
  refine ⟨rfl, rfl, rfl, by decide, by decide, by decide⟩

/-! ## Deleting a zero-valued field -/

/-- After `delete(rl, name)` the key `name` is not in the map. -/
theorem lookup_delete_self (rl : ResourceList) (name : String) :
    (rl.delete name).lookup name = none := by
  induction rl with
  | nil => rfl
  | cons e es ih =>
    obtain ⟨a, b⟩ := e
    have ih2 : List.lookup name (List.filter (fun e => e.1 != name) es) = none := ih
    show List.lookup name (List.filter (fun e => e.1 != name) ((a, b) :: es)) = none
    by_cases h : a = name
    · simp only [List.filter_cons, h, bne_self_eq_false, Bool.false_eq_true, if_false]
      exact ih2
    · have hne : (name == a) = false := by
        simp only [beq_eq_false_iff_ne, ne_eq]
        exact fun h2 => h h2.symm
      have hb : (a != name) = true := by simpa using h
      simp only [List.filter_cons, hb, if_true, List.lookup_cons, hne]
      exact ih2

/-- After `delete(rl, name)` every other key reads as before. -/
theorem lookup_delete_ne (rl : ResourceList) (name k : String) (hk : k ≠ name) :
    (rl.delete name).lookup k = rl.lookup k := by
  induction rl with
  | nil => rfl
  | cons e es ih =>
    obtain ⟨a, b⟩ := e
    have ih2 : List.lookup k (List.filter (fun e => e.1 != name) es) = List.lookup k es := ih
    show List.lookup k (List.filter (fun e => e.1 != name) ((a, b) :: es)) =
      List.lookup k ((a, b) :: es)
    by_cases h : a = name
    · subst h
      have hne : (k == a) = false := by
        simp only [beq_eq_false_iff_ne, ne_eq]
        exact hk
      simp only [List.filter_cons, bne_self_eq_false, Bool.false_eq_true, if_false,
        List.lookup_cons, hne]
      exact ih2
    · have hb : (a != name) = true := by simpa using h
      simp only [List.filter_cons, hb, if_true, List.lookup_cons]
      cases hke : (k == a) with
      | true => rfl
      | false => exact ih2

/-- The entry of the deleted field is absent afterwards. -/
theorem entry_deleteField_self (c : Container) (f : ResourceField) :
    f.entry (c.deleteField f) = none := by
  cases f <;>
  simp [ResourceField.entry, ResourceField.list, ResourceField.resource,
    Container.deleteField, lookup_delete_self]

/-- The entries of the other fields are as before. -/
theorem entry_deleteField_ne (c : Container) (f g : ResourceField) (h : g ≠ f) :
    g.entry (c.deleteField f) = g.entry c := by
  cases f <;> cases g <;>
  first
  | exact absurd rfl h
  | rfl
  | exact lookup_delete_ne _ _ _ (by decide)

/-- Deleting a field whose text is `0` changes the text of no field. -/
theorem text_deleteField (c : Container) (f : ResourceField) (h0 : f.text c = "0")
    (g : ResourceField) : g.text (c.deleteField f) = g.text c := by
  rw [text_eq_entry (c.deleteField f) g]
  by_cases hfg : g = f
  · subst hfg
    rw [entry_deleteField_self, h0]
  · rw [entry_deleteField_ne c f g hfg, ← text_eq_entry]

/-- The operations of a container depend on the four texts only. -/
theorem specContainerOps_congr (ns : String) (i : Nat) (c d : Container)
    (h : ∀ g : ResourceField, g.text d = g.text c) :
    specContainerOps ns i d = specContainerOps ns i c := by
  have h1 := h .requestsMemory
  have h2 := h .requestsCpu
  have h3 := h .limitsMemory
  have h4 := h .limitsCpu
  simp only [ResourceField.text] at h1 h2 h3 h4
  unfold specContainerOps
  rw [h1, h2, h3, h4]

/-- The operations of the containers numbered from `i` are unchanged by the deletion,
at position `j`, of a field whose text is `0`. -/
theorem specOpsFrom_deleteFieldAt (ns : String) (f : ResourceField) (cs : List Container) :
    ∀ (i j : Nat), (∀ c, cs[j]? = some c → f.text c = "0") →
      (((deleteFieldAt f j cs).enumFrom i).map
          (fun ic => specContainerOps ns ic.1 ic.2)).flatten =
        ((cs.enumFrom i).map (fun ic => specContainerOps ns ic.1 ic.2)).flatten := by
  induction cs with
  | nil => intro i j _; cases j <;> rfl
  | cons c cs ih =>
    intro i j h
    cases j with
    | zero =>
      have h0 : f.text c = "0" := h c (by simp)
      simp only [deleteFieldAt, List.enumFrom_cons, List.map_cons, List.flatten_cons]
      rw [specContainerOps_congr ns i c (c.deleteField f) (text_deleteField c f h0)]
    | succ j =>
      simp only [deleteFieldAt, List.enumFrom_cons, List.map_cons, List.flatten_cons]
      rw [ih (i + 1) j (fun d hd => h d (by simpa using hd))]

/-- The container at position `j` after the deletion. -/
theorem getElem?_deleteFieldAt (f : ResourceField) (cs : List Container) :
    ∀ j : Nat, (deleteFieldAt f j cs)[j]? = (cs[j]?).map (fun c => c.deleteField f) := by
  induction cs with
  | nil => intro j; cases j <;> rfl
  | cons c cs ih =>
    intro j
    cases j with
    | zero => simp [deleteFieldAt]
    | succ j => simpa [deleteFieldAt] using ih j

/-- Different keys have different operations. -/
theorem keyOp_inj (ns : String) (a b : Nat × ResourceField) (h : keyOp ns a = keyOp ns b) :
    a = b := by
  have hp : opPath (keyOp ns a) = opPath (keyOp ns b) := by rw [h]
  rw [opPath_keyOp, opPath_keyOp] at hp
  obtain ⟨h1, h2⟩ := fieldPath_inj _ _ _ _ (Option.some.inj hp)
  exact Prod.ext h1 h2

/-- C18: in an open gate a field that is present in the pod with a zero-valued quantity,
one whose text is `0`, reads like an absent field and yields no operation: deleting it
from the pod leaves the operation list unchanged. -/
theorem C18_zero_valued_field_yields_nothing (J : Json) (ns : String) (pod : Pod) (j : Nat)
    (f : ResourceField) (c : Container) (q : Quantity)
    (_hgate : stringsHasPrefix ns "openshift-" = true)
    (hc : pod.Spec.Containers[j]? = some c) (hq : f.entry c = some q)
    (hzero : q.String = "0") :
    f.text c = "0" ∧
    (pod.deleteField j f).Spec.Containers[j]? = some (c.deleteField f) ∧
    f.entry (c.deleteField f) = none ∧ f.text (c.deleteField f) = "0" ∧
    keyOp ns (j, f) ∉ builtOps J ns pod ∧
    builtOps J ns (pod.deleteField j f) = builtOps J ns pod := by
  have h0 : f.text c = "0" := by
    rw [text_eq_entry, hq]
    exact hzero
  refine ⟨h0, ?_, entry_deleteField_self c f, ?_, ?_, ?_⟩
  · simp [Pod.deleteField, getElem?_deleteFieldAt, hc]
  · rw [text_deleteField c f h0 f]
    exact h0
  · intro hmem
    rw [builtOps_eq_keys] at hmem
    obtain ⟨k, hk, hkey⟩ := List.mem_map.mp hmem
    have hkeq : k = (j, f) := keyOp_inj ns k (j, f) hkey
    subst hkeq
    obtain ⟨d, hd, hf⟩ := (mem_emittedKeys pod (j, f)).mp hk
    have hcd : d = c := by
      have : some d = some c := by rw [← hd, ← hc]
      exact Option.some.inj this
    subst hcd
    exact hf h0
  · rw [builtOps_eq_specOps, builtOps_eq_specOps]
    unfold specOps List.enum
    exact specOpsFrom_deleteFieldAt ns f pod.Spec.Containers 0 j
      (fun d hd => by
        have : some d = some c := by rw [← hd, ← hc]
        rw [Option.some.inj this]
        exact h0)

/-- C18 on a container with requests `cpu=0, memory=64Mi` and limits `memory=0`, in
`openshift-foo`: one operation, on `requests/memory`, with the zero-valued requests
`cpu` and without it. -/
theorem C18_zero_valued_field_yields_nothing_witness :
    stringsHasPrefix "openshift-foo" "openshift-" = true ∧
    builtOps sampleJson "openshift-foo" podZero =
      [[("op", "replace"), ("path", "/spec/containers/0/resources/requests/memory"),
        ("value", "10Mi")]] ∧
    podZero.deleteField 0 .requestsCpu =
      ⟨⟨[⟨⟨[("memory", ⟨"0"⟩)], [("memory", ⟨"64Mi"⟩)]⟩⟩]⟩⟩ ∧
    builtOps sampleJson "openshift-foo" (podZero.deleteField 0 .requestsCpu) =
      builtOps sampleJson "openshift-foo" podZero :=
  ⟨by decide, by decide, by decide,
    (C18_zero_valued_field_yields_nothing sampleJson "openshift-foo" podZero 0 .requestsCpu
      ⟨⟨[("memory", ⟨"0"⟩)], [("cpu", ⟨"0"⟩), ("memory", ⟨"64Mi"⟩)]⟩⟩ ⟨"0"⟩ (by decide) rfl rfl
      rfl).2.2.2.2.2⟩

/-- C19: the result of `Mutate` does not depend on its argument `verbose`, and it is a
function of the body: two calls on the same body, with any two values of `verbose`,
return the same bytes or the same failure. -/
theorem C19_verbose_has_no_effect :
    (∀ (J : Json) (body : Bytes), Mutate J body true = Mutate J body false) ∧
    (∀ (J : Json) (body : Bytes) (v1 v2 : Bool), Mutate J body v1 = Mutate J body v2) ∧
    Mutate sampleJson [2, 2] true = Mutate sampleJson [2, 2] false ∧
    Mutate sampleJson [1, 9] true = Mutate sampleJson [1, 9] false :=
  ⟨fun _ _ => rfl, fun _ _ _ _ => rfl, rfl, rfl⟩

end Webhook
